import Mathlib

/-!
Shallow embedding of `applications/ebos/eclwellmanager.hh` (class
`Ewoms::EclWellManager`), the well-lifecycle orchestrator of the ebos
black-oil simulator.  Scalars (`Scalar`, rates, depths, pressures) are
modelled as rationals; the external collaborators (deck schedule, grid,
global model) are modelled through the exact interface the manager
consumes, following section 6 of the design document.
-/

namespace EclWellManagerModel

/-- Deck well status, mirroring `Opm::WellCommon::StatusEnum`. -/
inductive WellStatusEnum
  | AUTO | OPEN | STOP | SHUT
deriving DecidableEq, Repr

/-- Injected-phase declaration, mirroring `Opm::WellInjector::TypeEnum`. -/
inductive InjectorTypeEnum
  | WATER | OIL | GAS | MULTI
deriving DecidableEq, Repr

/-- Injector control declaration, mirroring `Opm::WellInjector::ControlModeEnum`. -/
inductive InjectorControlEnum
  | RATE | RESV | BHP | THP | GRUP | CMODE_UNDEFINED
deriving DecidableEq, Repr

/-- Producer control declaration, mirroring `Opm::WellProducer::ControlModeEnum`. -/
inductive ProducerControlEnum
  | ORAT | GRAT | WRAT | LRAT | CRAT | RESV | BHP | THP | GRUP | CMODE_UNDEFINED
deriving DecidableEq, Repr

/-- One deck completion.  `getDiameter` throws inside opm-parser when the deck
defaulted the diameter (the manager catches this), so the diameter is an
`Option`; a defaulted or non-finite connection transmissibility factor is
likewise `none`. -/
structure Completion where
  I : Int
  J : Int
  K : Int
  diameter : Option ℚ
  connectionTransmissibilityFactor : Option ℚ
deriving DecidableEq, Repr

/-- Mirror of `Opm::WellInjectionProperties` (the fields the manager reads). -/
structure WellInjectionProperties where
  injectorType : InjectorTypeEnum
  controlMode : InjectorControlEnum
  surfaceInjectionRate : ℚ
  reservoirInjectionRate : ℚ
  BHPLimit : ℚ
deriving DecidableEq, Repr

/-- Mirror of `Opm::WellProductionProperties` (the fields the manager reads). -/
structure WellProductionProperties where
  controlMode : ProducerControlEnum
  OilRate : ℚ
  GasRate : ℚ
  WaterRate : ℚ
  LiquidRate : ℚ
  ResVRate : ℚ
  BHPLimit : ℚ
deriving DecidableEq, Repr

/-- A deck well (`Opm::Well`): a name plus per-report-step accessors. -/
structure DeckWell where
  name : String
  getStatus : Nat → WellStatusEnum
  isInjector : Nat → Bool
  isProducer : Nat → Bool
  getInjectionProperties : Nat → WellInjectionProperties
  getProductionProperties : Nat → WellProductionProperties
  getCompletions : Nat → List Completion
  getRefDepthDefaulted : Bool
  getRefDepth : ℚ

/-- The deck schedule: `getWellsAll` models the time-independent
`Schedule::getWells()` used by `init`, `getWells` the per-report-step
`Schedule::getWells(reportStepIdx)`. -/
structure Schedule where
  getWellsAll : List DeckWell
  getWells : Nat → List DeckWell

/-- The eclipse state: the schedule plus the logical grid extents consumed by
`computeWellCompletionsMap_`. -/
structure EclState where
  getSchedule : Schedule
  NX : Int
  NY : Int

/-- One local mesh element: its partition tag and the global space indices of
its primary DOFs. -/
structure GridElement where
  interior : Bool
  dofs : List Nat

/-- The simulator context consumed by the manager: eclipse state, episode
index, local element enumeration and the global-to-Cartesian cell table. -/
structure SimCtx where
  eclState : EclState
  episodeIndex : Nat
  elements : List GridElement
  cartesianCellId : Nat → Int

/-- Runtime well status (`EclPeacemanWell` side). -/
inductive WellStatus
  | Open | Closed | Shut
deriving DecidableEq, Repr

/-- Runtime well type. -/
inductive WellType
  | Injector | Producer
deriving DecidableEq, Repr

/-- Runtime control mode. -/
inductive ControlMode
  | VolumetricSurfaceRate | VolumetricReservoirRate
  | BottomHolePressure | TubingHeadPressure
deriving DecidableEq, Repr

/-- Fluid phase index (`FluidSystem::oilPhaseIdx` and friends). -/
inductive PhaseIdx
  | oilPhaseIdx | gasPhaseIdx | waterPhaseIdx
deriving DecidableEq, Repr

/-- A rate vector, one rational per phase (oil, gas, water). -/
abbrev RateVector := ℚ × ℚ × ℚ

/-- A DOF registered with a well, with its per-DOF overrides. -/
structure WellDof where
  globalIdx : Nat
  radius : Option ℚ
  connectionTransmissibilityFactor : Option ℚ
deriving DecidableEq, Repr

/-- Runtime state of one well (the slice of `EclPeacemanWell` the manager
drives; fields start unset after `init`). -/
structure Well where
  name : String
  wellStatus : Option WellStatus
  wellType : Option WellType
  controlMode : Option ControlMode
  injectedPhaseIdx : Option PhaseIdx
  volumetricWeights : Option RateVector
  maximumSurfaceRate : Option ℚ
  maximumReservoirRate : Option ℚ
  targetBottomHolePressure : Option ℚ
  targetTubingHeadPressure : Option ℚ
  referenceDepth : Option ℚ
  dofs : List WellDof
deriving DecidableEq, Repr

/-- The auxiliary-equation registry of the global model, holding the indices of the
wells currently registered (`Model::addAuxiliaryModule` /
`Model::clearAuxiliaryModules`). -/
structure ModelState where
  auxiliaryModules : List Nat
deriving DecidableEq, Repr

/-- The manager state: the well arena, the name index, and the global model
registry it mutates during topology rebuilds. -/
structure Manager where
  wells : List Well
  wellNameToIndex : List (String × Nat)
  model : ModelState
deriving DecidableEq, Repr

/-- Association-list lookup for the name index (`std::map::find`). -/
def lookupName : List (String × Nat) → String → Option Nat
  | [], _ => none
  | (k, v) :: rest, n => if k = n then some v else lookupName rest n

/-- Association-list store with overwrite (`std::map::operator[]`). -/
def storeName : List (String × Nat) → String → Nat → List (String × Nat)
  | [], n, i => [(n, i)]
  | (k, v) :: rest, n, i =>
    if k = n then (k, i) :: rest else (k, v) :: storeName rest n i

/-- A placeholder well as produced by `init`: only the name is set. -/
def initWell (wellName : String) : Well :=
  { name := wellName
    wellStatus := none
    wellType := none
    controlMode := none
    injectedPhaseIdx := none
    volumetricWeights := none
    maximumSurfaceRate := none
    maximumReservoirRate := none
    targetBottomHolePressure := none
    targetTubingHeadPressure := none
    referenceDepth := none
    dofs := [] }

/-- `EclWellManager::init`: one placeholder well per deck well, in declaration
order, recording the name-to-index map. -/
def initLoop (mgr : Manager) : List DeckWell → Manager
  | [] => mgr
  | dw :: rest =>
    initLoop
      { mgr with
          wellNameToIndex := storeName mgr.wellNameToIndex dw.name mgr.wells.length
          wells := mgr.wells ++ [initWell dw.name] }
      rest

/-- Entry point of `EclWellManager::init`. -/
def init (eclState : EclState) : Manager :=
  initLoop { wells := [], wellNameToIndex := [], model := { auxiliaryModules := [] } }
    eclState.getSchedule.getWellsAll

/-- `EclWellManager::hasWell`. -/
def hasWell (mgr : Manager) (wellName : String) : Bool :=
  (lookupName mgr.wellNameToIndex wellName).isSome

/-- `EclWellManager::wellIndex`: throws (`OPM_THROW`) for an unknown name. -/
def wellIndex (mgr : Manager) (wellName : String) : Except String Nat :=
  match lookupName mgr.wellNameToIndex wellName with
  | none => .error ("No well called " ++ wellName ++ " found")
  | some i => .ok i

/-- Coordinate comparison of two completions as done inside
`wellTopologyChanged_` (getI, getJ, getK). -/
def sameCoords (a b : Completion) : Bool :=
  a.I = b.I && a.J = b.J && a.K = b.K

/-- The innermost loop of `wellTopologyChanged_`: scans `prevCompletionSet` by
incrementing `prevWellComplIdx` until it reaches the set size, but — as in the
source — the completion actually compared is `prevCompletionSet->get(curWellComplIdx)`.
Returns true when a matching completion was found before exhaustion.  The
first argument is fuel: the loop terminates because `prevWellComplIdx` grows
to the set size. -/
def prevComplScan (curCompletion : Completion) (prevCompletionSet : List Completion)
    (curWellComplIdx : Nat) : Nat → Nat → Bool
  | 0, _ => false
  | fuel + 1, prevWellComplIdx =>
    if prevWellComplIdx = prevCompletionSet.length then
      false
    else if sameCoords curCompletion
        (prevCompletionSet.getD curWellComplIdx
          { I := 0, J := 0, K := 0, diameter := none,
            connectionTransmissibilityFactor := none }) then
      true
    else
      prevComplScan curCompletion prevCompletionSet curWellComplIdx fuel
        (prevWellComplIdx + 1)

/-- `EclWellManager::wellTopologyChanged_`.  Note two faithful-to-source
details: the completions of the previous well are queried at `reportStepIdx`
(not `reportStepIdx - 1`), and the previous completion set is indexed with
the current completion index inside the scan. -/
def wellTopologyChanged (eclState : EclState) (reportStepIdx : Nat) : Bool :=
  if reportStepIdx = 0 then
    true
  else
    let deckSchedule := eclState.getSchedule
    let curDeckWells := deckSchedule.getWells reportStepIdx
    let prevDeckWells := deckSchedule.getWells (reportStepIdx - 1)
    if curDeckWells.length ≠ prevDeckWells.length then
      true
    else
      curDeckWells.any fun curWell =>
        match prevDeckWells.find? (fun prevWell => prevWell.name = curWell.name) with
        | none => true
        | some prevWell =>
          let curCompletionSet := curWell.getCompletions reportStepIdx
          let prevCompletionSet := prevWell.getCompletions reportStepIdx
          if curCompletionSet.length ≠ prevCompletionSet.length then
            true
          else
            (List.range curCompletionSet.length).any fun curWellComplIdx =>
              ! prevComplScan
                  (curCompletionSet.getD curWellComplIdx
                    { I := 0, J := 0, K := 0, diameter := none,
                      connectionTransmissibilityFactor := none })
                  prevCompletionSet curWellComplIdx
                  (prevCompletionSet.length + 1) 0

/-- Lookup in the completions map (`WellCompletionsMap::count` / `::at`):
Cartesian cell index to (completion, owning well index). -/
def cmapLookup : List (Int × Completion × Nat) → Int → Option (Completion × Nat)
  | [], _ => none
  | (k, v) :: rest, cartIdx => if k = cartIdx then some v else cmapLookup rest cartIdx

/-- The Cartesian index of a completion: `i + j*nx + k*nx*ny`. -/
def cartIdxOf (nx ny : Int) (c : Completion) : Int :=
  c.I + c.J * nx + c.K * nx * ny

/-- Inner completion loop of `computeWellCompletionsMap_`: computes the
Cartesian index of each completion of one (known) well and inserts it; a key
already present trips the one-cell-one-well assertion. -/
def insertCompletions (wellIdx : Nat) (nx ny : Int) :
    List Completion → List (Int × Completion × Nat) →
    Except String (List (Int × Completion × Nat))
  | [], m => .ok m
  | c :: rest, m =>
    let cartIdx := cartIdxOf nx ny c
    if (cmapLookup m cartIdx).isSome then
      .error "assertion failed: each cell may be contained in at most one well"
    else
      insertCompletions wellIdx nx ny rest (m ++ [(cartIdx, c, wellIdx)])

/-- Outer loop of `computeWellCompletionsMap_`: wells unknown to the manager
are logged and skipped, all completions of known wells are inserted. -/
def buildCompletionsMap (mgr : Manager) (nx ny : Int) (reportStepIdx : Nat) :
    List DeckWell → List (Int × Completion × Nat) →
    Except String (List (Int × Completion × Nat))
  | [], m => .ok m
  | dw :: rest, m =>
    if hasWell mgr dw.name then
      match wellIndex mgr dw.name with
      | .error e => .error e
      | .ok wIdx =>
        match insertCompletions wIdx nx ny (dw.getCompletions reportStepIdx) m with
        | .error e => .error e
        | .ok m2 => buildCompletionsMap mgr nx ny reportStepIdx rest m2
    else
      -- "Well ... suddenly appears in the completions ... Ignoring."
      buildCompletionsMap mgr nx ny reportStepIdx rest m

/-- `EclWellManager::computeWellCompletionsMap_`. -/
def computeWellCompletionsMap (sim : SimCtx) (mgr : Manager) (reportStepIdx : Nat) :
    Except String (List (Int × Completion × Nat)) :=
  buildCompletionsMap mgr sim.eclState.NX sim.eclState.NY reportStepIdx
    (sim.eclState.getSchedule.getWells reportStepIdx) []

/-- `EclPeacemanWell::clear`: forget the owned-DOF set. -/
def clearWell (w : Well) : Well :=
  { w with dofs := [] }

/-- Replace the well at one index of the arena, leaving the rest unchanged. -/
def modifyWell : List Well → Nat → (Well → Well) → List Well
  | [], _, _ => []
  | w :: rest, 0, f => f w :: rest
  | w :: rest, i + 1, f => w :: modifyWell rest i f

/-- `EclPeacemanWell::addDof`: register a DOF with a well (no overrides yet). -/
def addDofTo (globalIdx : Nat) (w : Well) : Well :=
  { w with dofs := w.dofs ++ [{ globalIdx := globalIdx, radius := none,
                                connectionTransmissibilityFactor := none }] }

/-- Insertion into the `std::set` of wells that received a DOF (dedup). -/
def insertSet (l : List Nat) (x : Nat) : List Nat :=
  if x ∈ l then l else l ++ [x]

/-- DOF loop of `updateWellTopology_` for one interior element: resolve each
Cartesian cell of each DOF, look it up in the completions map, and on a hit register
the DOF with the owning well and remember that well. -/
def topoWalkDofs (cartesianCellId : Nat → Int) (cmap : List (Int × Completion × Nat)) :
    List Nat → List Well × List Nat → List Well × List Nat
  | [], acc => acc
  | globalDofIdx :: rest, (ws, regd) =>
    match cmapLookup cmap (cartesianCellId globalDofIdx) with
    | none => topoWalkDofs cartesianCellId cmap rest (ws, regd)
    | some (_, wIdx) =>
      topoWalkDofs cartesianCellId cmap rest
        (modifyWell ws wIdx (addDofTo globalDofIdx), insertSet regd wIdx)

/-- Element loop of `updateWellTopology_`: non-interior elements are skipped. -/
def topoWalkElems (cartesianCellId : Nat → Int) (cmap : List (Int × Completion × Nat)) :
    List GridElement → List Well × List Nat → List Well × List Nat
  | [], acc => acc
  | e :: rest, acc =>
    if e.interior then
      topoWalkElems cartesianCellId cmap rest (topoWalkDofs cartesianCellId cmap e.dofs acc)
    else
      topoWalkElems cartesianCellId cmap rest acc

/-- `EclWellManager::updateWellTopology_`: clear the auxiliary-module registry
and the DOF set of every well, walk the local elements, then register exactly the
wells that received a DOF. -/
def updateWellTopology (sim : SimCtx) (mgr : Manager)
    (wellCompletions : List (Int × Completion × Nat)) : Manager :=
  { mgr with
      wells := (topoWalkElems sim.cartesianCellId wellCompletions sim.elements
                  (mgr.wells.map clearWell, [])).1
      model := { auxiliaryModules :=
        (topoWalkElems sim.cartesianCellId wellCompletions sim.elements
          (mgr.wells.map clearWell, [])).2 } }

/-- `EclPeacemanWell::setRadius` for one registered DOF: radius is half the
completion diameter. -/
def setDofRadius (w : Well) (globalIdx : Nat) (r : ℚ) : Well :=
  { w with dofs := w.dofs.map fun d =>
      if d.globalIdx = globalIdx then { d with radius := some r } else d }

/-- `EclPeacemanWell::setConnectionTransmissibilityFactor` for one DOF. -/
def setDofCtf (w : Well) (globalIdx : Nat) (ctf : ℚ) : Well :=
  { w with dofs := w.dofs.map fun d =>
      if d.globalIdx = globalIdx then
        { d with connectionTransmissibilityFactor := some ctf }
      else d }

/-- Reference-depth loop of `updateWellParameters_`: for every deck well whose
reference depth is not defaulted, push it onto `wells_[wellIndex(wellName)]`.
Note there is no `hasWell` guard here: `wellIndex` throws on an unknown name. -/
def applyRefDepths (mgr : Manager) : List DeckWell → Except String Manager
  | [] => .ok mgr
  | dw :: rest =>
    if dw.getRefDepthDefaulted then
      applyRefDepths mgr rest
    else
      match wellIndex mgr dw.name with
      | .error e => .error e
      | .ok i =>
        applyRefDepths
          { mgr with wells := (modifyWell mgr.wells i
              (fun w => { w with referenceDepth := some dw.getRefDepth })) }
          rest

/-- DOF loop of the parameter walk: on a completions-map hit, set the radius
(skipping silently when the deck defaulted the diameter — the caught
`std::logic_error`) and override the connection transmissibility factor only
when it is finite and positive. -/
def paramWalkDofs (cartesianCellId : Nat → Int) (cmap : List (Int × Completion × Nat)) :
    List Nat → List Well → List Well
  | [], ws => ws
  | globalDofIdx :: rest, ws =>
    match cmapLookup cmap (cartesianCellId globalDofIdx) with
    | none => paramWalkDofs cartesianCellId cmap rest ws
    | some (completion, wIdx) =>
      let ws1 :=
        match completion.diameter with
        | some d => modifyWell ws wIdx (fun w => setDofRadius w globalDofIdx (d / 2))
        | none => ws
      let ws2 :=
        match completion.connectionTransmissibilityFactor with
        | some ctf =>
          if 0 < ctf then
            modifyWell ws1 wIdx (fun w => setDofCtf w globalDofIdx ctf)
          else ws1
        | none => ws1
      paramWalkDofs cartesianCellId cmap rest ws2

/-- Element loop of the parameter walk (non-interior elements skipped). -/
def paramWalkElems (cartesianCellId : Nat → Int) (cmap : List (Int × Completion × Nat)) :
    List GridElement → List Well → List Well
  | [], ws => ws
  | e :: rest, ws =>
    if e.interior then
      paramWalkElems cartesianCellId cmap rest (paramWalkDofs cartesianCellId cmap e.dofs ws)
    else
      paramWalkElems cartesianCellId cmap rest ws

/-- `EclWellManager::updateWellParameters_`. -/
def updateWellParameters (sim : SimCtx) (mgr : Manager) (reportStepIdx : Nat)
    (wellCompletions : List (Int × Completion × Nat)) : Except String Manager :=
  match applyRefDepths mgr (sim.eclState.getSchedule.getWells reportStepIdx) with
  | .error e => .error e
  | .ok mgr2 =>
    .ok { mgr2 with
            wells := paramWalkElems sim.cartesianCellId wellCompletions sim.elements
                       mgr2.wells }

/-- Status resolution at the top of the per-well loop of `beginEpisode`:
AUTO falls through to the OPEN case in the source switch. -/
def applyStatus (episodeIdx : Nat) (dw : DeckWell) (w : Well) : Well :=
  match dw.getStatus episodeIdx with
  | .AUTO => { w with wellStatus := some .Open }
  | .OPEN => { w with wellStatus := some .Open }
  | .STOP => { w with wellStatus := some .Closed }
  | .SHUT => { w with wellStatus := some .Shut }

/-- Injected-phase switch of the injector branch. -/
def injectorPhase (ip : WellInjectionProperties) (w : Well) : Except String Well :=
  match ip.injectorType with
  | .WATER => .ok { w with injectedPhaseIdx := some .waterPhaseIdx }
  | .GAS => .ok { w with injectedPhaseIdx := some .gasPhaseIdx }
  | .OIL => .ok { w with injectedPhaseIdx := some .oilPhaseIdx }
  | .MULTI => .error "Not implemented: Multi-phase injector wells"

/-- Control-mode switch of the injector branch. -/
def injectorControl (ip : WellInjectionProperties) (w : Well) : Except String Well :=
  match ip.controlMode with
  | .RATE => .ok { w with controlMode := some .VolumetricSurfaceRate }
  | .RESV => .ok { w with controlMode := some .VolumetricReservoirRate }
  | .BHP => .ok { w with controlMode := some .BottomHolePressure }
  | .THP => .ok { w with controlMode := some .TubingHeadPressure }
  | .GRUP => .error "Not implemented: Well groups"
  | .CMODE_UNDEFINED =>
    .error ("Control mode of well " ++ w.name ++ " is undefined.")

/-- Phase-weight switch of the injector branch. -/
def injectorWeights (ip : WellInjectionProperties) (w : Well) : Except String Well :=
  match ip.injectorType with
  | .WATER => .ok { w with volumetricWeights := some (0, 0, 1) }
  | .OIL => .ok { w with volumetricWeights := some (1, 0, 0) }
  | .GAS => .ok { w with volumetricWeights := some (0, 1, 0) }
  | .MULTI => .error "Not implemented: Multi-phase injection wells"

/-- The injector branch of the per-well loop of `beginEpisode`.  The
tubing-head-pressure target is the 1e100 sentinel of the source. -/
def applyInjectorControls (episodeIdx : Nat) (dw : DeckWell) (w : Well) :
    Except String Well :=
  let ip := dw.getInjectionProperties episodeIdx
  match injectorPhase ip { w with wellType := some .Injector } with
  | .error e => .error e
  | .ok w1 =>
    match injectorControl ip w1 with
    | .error e => .error e
    | .ok w2 =>
      match injectorWeights ip w2 with
      | .error e => .error e
      | .ok w3 =>
        .ok { w3 with
                maximumSurfaceRate := some ip.surfaceInjectionRate
                maximumReservoirRate := some ip.reservoirInjectionRate
                targetBottomHolePressure := some ip.BHPLimit
                targetTubingHeadPressure := some ((10 : ℚ) ^ 100) }

/-- Common tail of the producer branch: BHP limit, and the -1e100 sentinel for
the (unimplemented) tubing-head-pressure target. -/
def finishProducer (pp : WellProductionProperties) (w : Well) : Well :=
  { w with
      targetBottomHolePressure := some pp.BHPLimit
      targetTubingHeadPressure := some (-((10 : ℚ) ^ 100)) }

/-- The producer branch of the per-well loop of `beginEpisode`. -/
def applyProducerControls (episodeIdx : Nat) (dw : DeckWell) (w : Well) :
    Except String Well :=
  let w0 : Well := { w with wellType := some .Producer }
  let pp := dw.getProductionProperties episodeIdx
  match pp.controlMode with
  | .ORAT =>
    .ok (finishProducer pp
      { w0 with controlMode := some .VolumetricSurfaceRate
                volumetricWeights := some (1, 0, 0)
                maximumSurfaceRate := some pp.OilRate })
  | .GRAT =>
    .ok (finishProducer pp
      { w0 with controlMode := some .VolumetricSurfaceRate
                volumetricWeights := some (0, 1, 0)
                maximumSurfaceRate := some pp.GasRate })
  | .WRAT =>
    .ok (finishProducer pp
      { w0 with controlMode := some .VolumetricSurfaceRate
                volumetricWeights := some (0, 0, 1)
                maximumSurfaceRate := some pp.WaterRate })
  | .LRAT =>
    .ok (finishProducer pp
      { w0 with controlMode := some .VolumetricSurfaceRate
                volumetricWeights := some (1, 0, 1)
                maximumSurfaceRate := some pp.LiquidRate })
  | .CRAT => .error "Not implemented: Linearly combined rates"
  | .RESV =>
    .ok (finishProducer pp
      { w0 with controlMode := some .VolumetricReservoirRate
                volumetricWeights := some (1, 1, 1)
                maximumSurfaceRate := some pp.ResVRate })
  | .BHP =>
    .ok (finishProducer pp { w0 with controlMode := some .BottomHolePressure })
  | .THP =>
    .ok (finishProducer pp { w0 with controlMode := some .TubingHeadPressure })
  | .GRUP => .error "Not implemented: Well groups"
  | .CMODE_UNDEFINED =>
    .error ("Control mode of well " ++ w0.name ++ " is undefined.")

/-- Body of the per-well loop of `beginEpisode` for one deck well already
matched to a managed well: status switch, the exactly-one-of-injector-
or-producer assertion, then the injector and producer branches. -/
def beginEpisodeUpdateWell (episodeIdx : Nat) (dw : DeckWell) (w : Well) :
    Except String Well :=
  let w1 := applyStatus episodeIdx dw w
  if ((if dw.isInjector episodeIdx then 1 else 0) +
      (if dw.isProducer episodeIdx then 1 else 0) : Nat) ≠ 1 then
    .error "assertion failed: a well must be either an injector or a producer"
  else
    match (if dw.isInjector episodeIdx then applyInjectorControls episodeIdx dw w1
           else .ok w1) with
    | .error e => .error e
    | .ok w2 =>
      if dw.isProducer episodeIdx then applyProducerControls episodeIdx dw w2
      else .ok w2

/-- The per-well loop of `beginEpisode`: deck wells unknown to the manager are
skipped (`if (!hasWell(...)) continue`). -/
def beginEpisodeWellsLoop (episodeIdx : Nat) (mgr : Manager) :
    List DeckWell → Except String Manager
  | [] => .ok mgr
  | dw :: rest =>
    if hasWell mgr dw.name then
      match wellIndex mgr dw.name with
      | .error e => .error e
      | .ok i =>
        match beginEpisodeUpdateWell episodeIdx dw (mgr.wells.getD i (initWell "")) with
        | .error e => .error e
        | .ok w2 =>
          beginEpisodeWellsLoop episodeIdx { mgr with wells := mgr.wells.set i w2 } rest
    else
      beginEpisodeWellsLoop episodeIdx mgr rest

/-- The topology-rebuild step of `beginEpisode`: rebuild when restarted or
when the detector reports a change, otherwise keep the current topology. -/
def beginEpisodeRebuild (sim : SimCtx) (mgr : Manager) (wasRestarted : Bool)
    (wellCompMap : List (Int × Completion × Nat)) : Manager :=
  if wasRestarted || wellTopologyChanged sim.eclState sim.episodeIndex then
    updateWellTopology sim mgr wellCompMap
  else mgr

/-- `EclWellManager::beginEpisode`: build the completions map, rebuild the
topology when restarted or changed, push the parameters, then resolve each
status and controls of each scheduled well. -/
def beginEpisode (sim : SimCtx) (mgr : Manager) (wasRestarted : Bool) :
    Except String Manager :=
  match computeWellCompletionsMap sim mgr sim.episodeIndex with
  | .error e => .error e
  | .ok wellCompMap =>
    match updateWellParameters sim (beginEpisodeRebuild sim mgr wasRestarted wellCompMap)
        sim.episodeIndex wellCompMap with
    | .error e => .error e
    | .ok mgr2 =>
      beginEpisodeWellsLoop sim.episodeIndex mgr2
        (sim.eclState.getSchedule.getWells sim.episodeIndex)

/-- `EclWellManager::serialize`: the body is empty, nothing is written to the
restart stream. -/
def serialize (mgr : Manager) : Manager × List String :=
  (mgr, [])

/-- `EclWellManager::deserialize`: re-run `beginEpisode` for the current
episode with `wasRestarted = true`. -/
def deserialize (sim : SimCtx) (mgr : Manager) : Except String Manager :=
  beginEpisode sim mgr true

/-- Accumulation loop of `EclWellManager::computeTotalRatesForDof`: `q` starts
at zero and the freshly zero-initialized per-DOF rate of every well is added.  The
per-well rate computation lives in `EclPeacemanWell` and is passed in as
`contrib`. -/
def sumWellRates (contrib : Well → Nat → RateVector) (dofIdx : Nat) :
    RateVector → List Well → RateVector
  | q, [] => q
  | q, w :: rest => sumWellRates contrib dofIdx (q + contrib w dofIdx) rest

/-- `EclWellManager::computeTotalRatesForDof`. -/
def computeTotalRatesForDof (mgr : Manager) (contrib : Well → Nat → RateVector)
    (dofIdx : Nat) : RateVector :=
  sumWellRates contrib dofIdx 0 mgr.wells

/-- The global DOF indices registered with a well. -/
def dofIds (w : Well) : List Nat :=
  w.dofs.map WellDof.globalIdx

/-- A well owns a DOF when the DOF is registered with it. -/
def ownsDof (w : Well) (dofIdx : Nat) : Bool :=
  dofIdx ∈ dofIds w

/-- The DOF-to-well association of a manager state: per well (in arena order)
its name and owned DOF indices. -/
def dofAssociation (mgr : Manager) : List (String × List Nat) :=
  mgr.wells.map fun w => (w.name, dofIds w)

/-- Well-formedness of a manager: every index stored in the name map points
into the well arena. -/
def WFmgr (mgr : Manager) : Prop :=
  ∀ p ∈ mgr.wellNameToIndex, p.2 < mgr.wells.length

instance (mgr : Manager) : Decidable (WFmgr mgr) := by
  unfold WFmgr; infer_instance

/-- The DOF hits of the DOF list of one element: the (global DOF, owning well
index) pairs whose Cartesian cell appears in the completions map. -/
def dofHits (cartesianCellId : Nat → Int) (cmap : List (Int × Completion × Nat)) :
    List Nat → List (Nat × Nat)
  | [] => []
  | g :: rest =>
    match cmapLookup cmap (cartesianCellId g) with
    | none => dofHits cartesianCellId cmap rest
    | some (_, wIdx) => (g, wIdx) :: dofHits cartesianCellId cmap rest

/-- All DOF hits of the interior elements, in element walk order. -/
def elemHits (cartesianCellId : Nat → Int) (cmap : List (Int × Completion × Nat)) :
    List GridElement → List (Nat × Nat)
  | [] => []
  | e :: rest =>
    (if e.interior then dofHits cartesianCellId cmap e.dofs else []) ++
      elemHits cartesianCellId cmap rest

/-- Specification of the DOFs a topology rebuild assigns to well `wIdx`: the
interior-element DOFs whose Cartesian cell the completions map sends to
`wIdx`. -/
def assignedDofsSpec (sim : SimCtx) (cmap : List (Int × Completion × Nat))
    (wIdx : Nat) : List Nat :=
  ((elemHits sim.cartesianCellId cmap sim.elements).filter
    (fun p => p.2 = wIdx)).map Prod.fst

/-- The element walk of `updateWellTopology_` replayed over its sequence of
completions-map hits: each hit appends the DOF to the owning well and records
the well in the registration set. -/
def applyHits : List (Nat × Nat) → List Well × List Nat → List Well × List Nat
  | [], acc => acc
  | (g, wIdx) :: rest, (ws, regd) =>
    applyHits rest (modifyWell ws wIdx (addDofTo g), insertSet regd wIdx)

/-- The Cartesian indices of the completions of the deck wells known to the
manager, in insertion order of `computeWellCompletionsMap_`. -/
def knownCartIdxs (mgr : Manager) (nx ny : Int) (reportStepIdx : Nat)
    (dws : List DeckWell) : List Int :=
  (dws.filter (fun dw => hasWell mgr dw.name)).flatMap
    (fun dw => (dw.getCompletions reportStepIdx).map (cartIdxOf nx ny))

/-- An operating declaration the manager explicitly rejects (claim C6):
multi-phase injection, group control for injectors or producers, combined-rate
production, or an undefined control mode. -/
def unsupportedDecl (e : Nat) (dw : DeckWell) : Prop :=
  (dw.isInjector e = true ∧ dw.isProducer e = false ∧
    ((dw.getInjectionProperties e).injectorType = .MULTI ∨
     (dw.getInjectionProperties e).controlMode = .GRUP ∨
     (dw.getInjectionProperties e).controlMode = .CMODE_UNDEFINED)) ∨
  (dw.isInjector e = false ∧ dw.isProducer e = true ∧
    ((dw.getProductionProperties e).controlMode = .CRAT ∨
     (dw.getProductionProperties e).controlMode = .GRUP ∨
     (dw.getProductionProperties e).controlMode = .CMODE_UNDEFINED))

/-! ### Concrete schedules and grids used as test inputs -/

/-- A completion with no diameter and no transmissibility override. -/
def mkCompletion (i j k : Int) : Completion :=
  { I := i, J := j, K := k, diameter := none,
    connectionTransmissibilityFactor := none }

/-- Sample injection properties. -/
def mkInjProps (it : InjectorTypeEnum) (cm : InjectorControlEnum) :
    WellInjectionProperties :=
  { injectorType := it, controlMode := cm, surfaceInjectionRate := 5,
    reservoirInjectionRate := 6, BHPLimit := 7 }

/-- Sample production properties. -/
def mkProdProps (cm : ProducerControlEnum) : WellProductionProperties :=
  { controlMode := cm, OilRate := 11, GasRate := 12, WaterRate := 13,
    LiquidRate := 14, ResVRate := 15, BHPLimit := 16 }

/-- An open injector deck well with the given completions at every step. -/
def mkInjWell (nm : String) (it : InjectorTypeEnum) (cm : InjectorControlEnum)
    (cs : List Completion) : DeckWell :=
  { name := nm
    getStatus := fun _ => .OPEN
    isInjector := fun _ => true
    isProducer := fun _ => false
    getInjectionProperties := fun _ => mkInjProps it cm
    getProductionProperties := fun _ => mkProdProps .ORAT
    getCompletions := fun _ => cs
    getRefDepthDefaulted := true
    getRefDepth := 0 }

/-- An open producer deck well with the given completions at every step. -/
def mkPrdWell (nm : String) (cm : ProducerControlEnum) (cs : List Completion) :
    DeckWell :=
  { name := nm
    getStatus := fun _ => .OPEN
    isInjector := fun _ => false
    isProducer := fun _ => true
    getInjectionProperties := fun _ => mkInjProps .WATER .RATE
    getProductionProperties := fun _ => mkProdProps cm
    getCompletions := fun _ => cs
    getRefDepthDefaulted := true
    getRefDepth := 0 }

/-- C1 input: a producer whose completion set grows from one completion at
report step 0 to two at report step 1. -/
def exGrowingWell : DeckWell :=
  { mkPrdWell "P1" .ORAT [] with
      getCompletions := fun stepIdx =>
        if stepIdx = 0 then [mkCompletion 0 0 0]
        else [mkCompletion 0 0 0, mkCompletion 1 0 0] }

/-- C1 input: the schedule containing only `exGrowingWell` at every step. -/
def exC1EclState : EclState :=
  { getSchedule := { getWellsAll := [exGrowingWell]
                     getWells := fun _ => [exGrowingWell] }
    NX := 10, NY := 10 }

/-- A two-well schedule on a 2x2x1 logical grid: one water injector completed
in cell (0,0,0) and one oil-rate producer completed in cell (1,0,0). -/
def exInjWell : DeckWell := mkInjWell "INJ" .WATER .RATE [mkCompletion 0 0 0]

/-- The producer of the sample schedule. -/
def exPrdWell : DeckWell := mkPrdWell "PRD" .ORAT [mkCompletion 1 0 0]

/-- The sample eclipse state. -/
def exEclState : EclState :=
  { getSchedule := { getWellsAll := [exInjWell, exPrdWell]
                     getWells := fun _ => [exInjWell, exPrdWell] }
    NX := 2, NY := 2 }

/-- The sample simulator context: two interior elements (DOFs 0,1 and 3), one
non-interior element (DOF 2), global DOF index equal to the Cartesian cell
index. -/
def exSim : SimCtx :=
  { eclState := exEclState
    episodeIndex := 0
    elements := [{ interior := true, dofs := [0, 1] },
                 { interior := false, dofs := [2] },
                 { interior := true, dofs := [3] }]
    cartesianCellId := fun g => (g : Int) }

/-- The sample manager produced by `init`. -/
def exMgr : Manager := init exEclState

/-- The completions map of the sample input (empty on the error path, which
does not occur). -/
def exCmap : List (Int × Completion × Nat) :=
  match computeWellCompletionsMap exSim exMgr 0 with
  | .ok m => m
  | .error _ => []

/-- The manager after a successful sample `beginEpisode` (the error path does
not occur). -/
def exEpisodeResult : Manager :=
  match beginEpisode exSim exMgr false with
  | .ok m => m
  | .error _ => exMgr

/-- C2 input: a deck well that appears in the report-step well list but not in
the time-independent well list `init` consumes, with a non-defaulted
reference depth. -/
def exGhostWell : DeckWell :=
  { mkPrdWell "GHOST" .ORAT [] with getRefDepthDefaulted := false, getRefDepth := 50 }

/-- C2 input: schedule whose step-0 well list contains the drifted well. -/
def exC2EclState : EclState :=
  { getSchedule := { getWellsAll := [exInjWell]
                     getWells := fun _ => [exInjWell, exGhostWell] }
    NX := 2, NY := 2 }

/-- C2 simulator context. -/
def exC2Sim : SimCtx :=
  { exSim with eclState := exC2EclState }

/-- C2 manager: only the injector exists. -/
def exC2Mgr : Manager := init exC2EclState

/-- C2 witness input: the same drifted well but with a defaulted reference
depth. -/
def exGhostWellDefaulted : DeckWell :=
  { exGhostWell with getRefDepthDefaulted := true }

/-- C2 witness schedule. -/
def exC2dEclState : EclState :=
  { getSchedule := { getWellsAll := [exInjWell]
                     getWells := fun _ => [exInjWell, exGhostWellDefaulted] }
    NX := 2, NY := 2 }

/-- C2 witness simulator context. -/
def exC2dSim : SimCtx :=
  { exSim with eclState := exC2dEclState }

/-- C2 witness manager. -/
def exC2dMgr : Manager := init exC2dEclState

/-- C3 input: two distinct wells each completed in the same logical cell
(1,1,0). -/
def exC3EclState : EclState :=
  { getSchedule := { getWellsAll := [mkInjWell "D1" .WATER .RATE [mkCompletion 1 1 0],
                                     mkPrdWell "D2" .ORAT [mkCompletion 1 1 0]]
                     getWells := fun _ => [mkInjWell "D1" .WATER .RATE [mkCompletion 1 1 0],
                                           mkPrdWell "D2" .ORAT [mkCompletion 1 1 0]] }
    NX := 2, NY := 2 }

/-- C3 simulator context. -/
def exC3Sim : SimCtx :=
  { exSim with eclState := exC3EclState }

/-- C3 manager. -/
def exC3Mgr : Manager := init exC3EclState

/-- C4 input: a deck well flagged as both injector and producer. -/
def exBothWell : DeckWell :=
  { mkPrdWell "BOTH" .ORAT [] with isInjector := fun _ => true }

/-- C4 bad-flag schedule. -/
def exC4EclState : EclState :=
  { getSchedule := { getWellsAll := [exBothWell]
                     getWells := fun _ => [exBothWell] }
    NX := 2, NY := 2 }

/-- C4 bad-flag simulator context. -/
def exC4Sim : SimCtx :=
  { exSim with eclState := exC4EclState }

/-- C4 bad-flag manager. -/
def exC4Mgr : Manager := init exC4EclState

/-- C7 input: a well owning DOF 0. -/
def exWellA : Well :=
  { initWell "A" with dofs := [{ globalIdx := 0, radius := none,
                                 connectionTransmissibilityFactor := none }] }

/-- C7 input: a well owning DOF 1. -/
def exWellB : Well :=
  { initWell "B" with dofs := [{ globalIdx := 1, radius := none,
                                 connectionTransmissibilityFactor := none }] }

/-- C7 input: a manager holding the two wells above. -/
def exRatesMgr : Manager :=
  { wells := [exWellA, exWellB], wellNameToIndex := [("A", 0), ("B", 1)]
    model := { auxiliaryModules := [] } }

/-- C7 input: a per-well rate contribution that is zero on DOFs the well does
not own. -/
def exContrib : Well → Nat → RateVector :=
  fun w dofIdx => if ownsDof w dofIdx then (1, 2, 3) else 0

/-- C10 witness input: a producer declared with status AUTO. -/
def exAutoWell : DeckWell :=
  { mkPrdWell "AW" .ORAT [] with getStatus := fun _ => .AUTO }

/-- C10 witness: the well produced for the AUTO-status producer (the error
path does not occur). -/
def exAutoResult : Well :=
  match beginEpisodeUpdateWell 0 exAutoWell (initWell "AW") with
  | .ok w => w
  | .error _ => initWell ""

/-- C6 witness input: a schedule whose only well is a CRAT producer. -/
def exC6EclState : EclState :=
  { getSchedule := { getWellsAll := [mkPrdWell "CP" .CRAT []]
                     getWells := fun _ => [mkPrdWell "CP" .CRAT []] }
    NX := 2, NY := 2 }

/-- C6 witness simulator context. -/
def exC6Sim : SimCtx :=
  { exSim with eclState := exC6EclState }

/-- C6 witness manager. -/
def exC6Mgr : Manager := init exC6EclState

/-- C8 witness: the manager after deserializing the serialized sample
manager. -/
def exC8R1 : Manager :=
  match deserialize exSim (serialize exMgr).1 with
  | .ok m => m
  | .error _ => exMgr

/-- C8 witness: the manager after a fresh restarted `beginEpisode`. -/
def exC8R2 : Manager :=
  match beginEpisode exSim exMgr true with
  | .ok m => m
  | .error _ => exMgr

end EclWellManagerModel

namespace EclWellManagerModel

/-! ### Helper lemmas about the per-well control resolution -/

lemma applyStatus_name (e : Nat) (dw : DeckWell) (w : Well) :
    (applyStatus e dw w).name = w.name := by
  unfold applyStatus; cases dw.getStatus e <;> simp

lemma applyStatus_dofs (e : Nat) (dw : DeckWell) (w : Well) :
    (applyStatus e dw w).dofs = w.dofs := by
  unfold applyStatus; cases dw.getStatus e <;> simp

lemma applyInjectorControls_ok_fields {e : Nat} {dw : DeckWell} {w w2 : Well}
    (h : applyInjectorControls e dw w = .ok w2) :
    w2.name = w.name ∧ w2.dofs = w.dofs ∧ w2.wellStatus = w.wellStatus ∧
      w2.wellType = some WellType.Injector := by
  unfold applyInjectorControls injectorPhase injectorControl injectorWeights at h
  cases hit : (dw.getInjectionProperties e).injectorType <;>
    cases hcm : (dw.getInjectionProperties e).controlMode <;>
      simp [hit, hcm] at h <;> subst h <;> simp

lemma applyProducerControls_ok_fields {e : Nat} {dw : DeckWell} {w w2 : Well}
    (h : applyProducerControls e dw w = .ok w2) :
    w2.name = w.name ∧ w2.dofs = w.dofs ∧ w2.wellStatus = w.wellStatus ∧
      w2.wellType = some WellType.Producer := by
  unfold applyProducerControls finishProducer at h
  cases hcm : (dw.getProductionProperties e).controlMode <;>
    simp [hcm] at h <;> subst h <;> simp

lemma beginEpisodeUpdateWell_ok_fields {e : Nat} {dw : DeckWell} {w w2 : Well}
    (h : beginEpisodeUpdateWell e dw w = .ok w2) :
    w2.name = w.name ∧ w2.dofs = w.dofs ∧
      w2.wellStatus = (applyStatus e dw w).wellStatus ∧
      (w2.wellType = some WellType.Injector ∨ w2.wellType = some WellType.Producer) := by
  unfold beginEpisodeUpdateWell at h
  cases hi : dw.isInjector e <;> cases hp : dw.isProducer e <;> simp [hi, hp] at h
  · obtain ⟨h1, h2, h3, h4⟩ := applyProducerControls_ok_fields h
    exact ⟨h1.trans (applyStatus_name e dw w), h2.trans (applyStatus_dofs e dw w), h3, .inr h4⟩
  · cases hinj : applyInjectorControls e dw (applyStatus e dw w) with
    | error s => rw [hinj] at h; simp at h
    | ok wa =>
      rw [hinj] at h; simp at h
      subst h
      obtain ⟨h1, h2, h3, h4⟩ := applyInjectorControls_ok_fields hinj
      exact ⟨h1.trans (applyStatus_name e dw w), h2.trans (applyStatus_dofs e dw w), h3, .inl h4⟩

lemma beginEpisodeUpdateWell_flags_error {e : Nat} {dw : DeckWell}
    (hflags : dw.isInjector e = dw.isProducer e) (w : Well) :
    beginEpisodeUpdateWell e dw w =
      .error "assertion failed: a well must be either an injector or a producer" := by
  unfold beginEpisodeUpdateWell
  cases hi : dw.isInjector e <;> cases hp : dw.isProducer e <;>
    rw [hi, hp] at hflags <;> simp_all

lemma wellIndex_ok_of_hasWell {mgr : Manager} {n : String} (h : hasWell mgr n = true) :
    ∃ i, wellIndex mgr n = .ok i ∧ lookupName mgr.wellNameToIndex n = some i := by
  unfold hasWell at h
  unfold wellIndex
  cases hl : lookupName mgr.wellNameToIndex n with
  | none => rw [hl] at h; simp at h
  | some i => exact ⟨i, by simp, rfl⟩

lemma beginEpisodeUpdateWell_unsupported {e : Nat} {dw : DeckWell}
    (h : unsupportedDecl e dw) :
    ∀ w, (beginEpisodeUpdateWell e dw w).isOk = false := by
  intro w
  rcases h with ⟨hi, hp, hc⟩ | ⟨hi, hp, hc⟩
  · cases hit : (dw.getInjectionProperties e).injectorType <;>
      cases hcm : (dw.getInjectionProperties e).controlMode <;>
        simp_all [beginEpisodeUpdateWell, applyInjectorControls, injectorPhase,
                  injectorControl, injectorWeights, Except.isOk, Except.toBool]
  · cases hcm : (dw.getProductionProperties e).controlMode <;>
      simp_all [beginEpisodeUpdateWell, applyProducerControls, finishProducer,
                Except.isOk, Except.toBool]

lemma beginEpisodeWellsLoop_isOk_false {e : Nat} {dw : DeckWell}
    (hbad : ∀ w, (beginEpisodeUpdateWell e dw w).isOk = false) :
    ∀ (dws : List DeckWell) (mgr : Manager), dw ∈ dws → hasWell mgr dw.name = true →
      (beginEpisodeWellsLoop e mgr dws).isOk = false := by
  intro dws
  induction dws with
  | nil => intro mgr h; simp at h
  | cons d rest ih =>
    intro mgr hmem hhas
    unfold beginEpisodeWellsLoop
    rcases List.mem_cons.mp hmem with heq | hmem2
    · subst heq
      rw [if_pos hhas]
      obtain ⟨i, hwi, _⟩ := wellIndex_ok_of_hasWell hhas
      simp only [hwi]
      cases hupd : beginEpisodeUpdateWell e dw (mgr.wells.getD i (initWell "")) with
      | error s => simp [Except.isOk, Except.toBool]
      | ok w2 =>
        have hb := hbad (mgr.wells.getD i (initWell ""))
        rw [hupd] at hb
        simp [Except.isOk, Except.toBool] at hb
    · by_cases hd : hasWell mgr d.name
      · rw [if_pos hd]
        obtain ⟨i, hwi, _⟩ := wellIndex_ok_of_hasWell hd
        simp only [hwi]
        cases hupd : beginEpisodeUpdateWell e d (mgr.wells.getD i (initWell "")) with
        | error s => simp [Except.isOk, Except.toBool]
        | ok w2 =>
          simp only [hupd]
          exact ih _ hmem2 hhas
      · rw [if_neg hd]
        exact ih _ hmem2 hhas

lemma applyRefDepths_nameMap : ∀ (dws : List DeckWell) (mgr mgr2 : Manager),
    applyRefDepths mgr dws = .ok mgr2 → mgr2.wellNameToIndex = mgr.wellNameToIndex := by
  intro dws
  induction dws with
  | nil =>
    intro mgr mgr2 h
    unfold applyRefDepths at h
    cases h; rfl
  | cons d rest ih =>
    intro mgr mgr2 h
    unfold applyRefDepths at h
    by_cases hd : d.getRefDepthDefaulted
    · rw [if_pos hd] at h; exact ih _ _ h
    · rw [if_neg hd] at h
      cases hwi : wellIndex mgr d.name with
      | error s => rw [hwi] at h; simp at h
      | ok i => rw [hwi] at h; exact (ih _ _ h).trans rfl

lemma updateWellParameters_nameMap {sim : SimCtx} {mgr mgr2 : Manager} {i : Nat}
    {cmap : List (Int × Completion × Nat)}
    (h : updateWellParameters sim mgr i cmap = .ok mgr2) :
    mgr2.wellNameToIndex = mgr.wellNameToIndex := by
  unfold updateWellParameters at h
  cases hr : applyRefDepths mgr (sim.eclState.getSchedule.getWells i) with
  | error s => rw [hr] at h; simp at h
  | ok mgrA =>
    rw [hr] at h
    injection h with h2
    rw [← h2]
    show mgrA.wellNameToIndex = mgr.wellNameToIndex
    exact applyRefDepths_nameMap _ _ _ hr

lemma beginEpisodeRebuild_nameMap (sim : SimCtx) (mgr : Manager) (r : Bool)
    (cmap : List (Int × Completion × Nat)) :
    (beginEpisodeRebuild sim mgr r cmap).wellNameToIndex = mgr.wellNameToIndex := by
  unfold beginEpisodeRebuild
  split <;> rfl

lemma beginEpisode_isOk_false_of_bad {sim : SimCtx} {mgr : Manager} {r : Bool} {dw : DeckWell}
    (hbad : ∀ w, (beginEpisodeUpdateWell sim.episodeIndex dw w).isOk = false)
    (hmem : dw ∈ sim.eclState.getSchedule.getWells sim.episodeIndex)
    (hhas : hasWell mgr dw.name = true) :
    (beginEpisode sim mgr r).isOk = false := by
  unfold beginEpisode
  cases hc : computeWellCompletionsMap sim mgr sim.episodeIndex with
  | error s => simp [Except.isOk, Except.toBool]
  | ok cmap =>
    simp only []
    cases hp : updateWellParameters sim (beginEpisodeRebuild sim mgr r cmap)
        sim.episodeIndex cmap with
    | error s => simp [Except.isOk, Except.toBool]
    | ok mgr2 =>
      simp only []
      apply beginEpisodeWellsLoop_isOk_false hbad _ _ hmem
      unfold hasWell at hhas ⊢
      rw [updateWellParameters_nameMap hp, beginEpisodeRebuild_nameMap]
      exact hhas

lemma sumWellRates_eq (contrib : Well → Nat → RateVector) (dofIdx : Nat) :
    ∀ (ws : List Well) (q : RateVector),
      sumWellRates contrib dofIdx q ws = q + (ws.map (fun w => contrib w dofIdx)).sum := by
  intro ws
  induction ws with
  | nil => intro q; simp [sumWellRates]
  | cons w rest ih =>
    intro q
    simp [sumWellRates, ih, add_assoc]

/-! ### Claim theorems (first batch) -/

/-- C1 (code bug exhibit): in the schedule `exC1EclState` the only well gains
a completion between report step 0 and report step 1, the well lists have
equal length, yet `wellTopologyChanged` reports no change at step 1 — the
detector reads the completions of the previous well list at the current step and
compares them positionally, so an added completion goes unnoticed. -/
theorem c1_added_completion_not_detected :
    exGrowingWell.getCompletions 1 ≠ exGrowingWell.getCompletions 0 ∧
    (exC1EclState.getSchedule.getWells 1).length =
      (exC1EclState.getSchedule.getWells 0).length ∧
    wellTopologyChanged exC1EclState 1 = false := by
  refine ⟨by decide, by decide, by decide⟩

/-- C10: a deck status of AUTO makes `beginEpisode` treat the well exactly as
OPEN does — the per-well update is literally the same function — and the
resulting runtime status is Open; STOP maps to Closed and SHUT to Shut. -/
theorem c10_auto_status :
    ∀ (e : Nat) (dw : DeckWell) (w : Well),
      (beginEpisodeUpdateWell e { dw with getStatus := fun _ => .AUTO } w =
        beginEpisodeUpdateWell e { dw with getStatus := fun _ => .OPEN } w) ∧
      (∀ w2, dw.getStatus e = .AUTO → beginEpisodeUpdateWell e dw w = .ok w2 →
        w2.wellStatus = some WellStatus.Open) ∧
      (∀ w2, dw.getStatus e = .STOP → beginEpisodeUpdateWell e dw w = .ok w2 →
        w2.wellStatus = some WellStatus.Closed) ∧
      (∀ w2, dw.getStatus e = .SHUT → beginEpisodeUpdateWell e dw w = .ok w2 →
        w2.wellStatus = some WellStatus.Shut) := by
  intro e dw w
  refine ⟨?_, ?_, ?_, ?_⟩
  · have h1 : ∀ w0, applyInjectorControls e { dw with getStatus := fun _ => WellStatusEnum.AUTO } w0 =
        applyInjectorControls e dw w0 := fun _ => rfl
    have h2 : ∀ w0, applyInjectorControls e { dw with getStatus := fun _ => WellStatusEnum.OPEN } w0 =
        applyInjectorControls e dw w0 := fun _ => rfl
    have h3 : ∀ w0, applyProducerControls e { dw with getStatus := fun _ => WellStatusEnum.AUTO } w0 =
        applyProducerControls e dw w0 := fun _ => rfl
    have h4 : ∀ w0, applyProducerControls e { dw with getStatus := fun _ => WellStatusEnum.OPEN } w0 =
        applyProducerControls e dw w0 := fun _ => rfl
    simp [beginEpisodeUpdateWell, applyStatus, h1, h2, h3, h4]
  · intro w2 hs h
    rw [(beginEpisodeUpdateWell_ok_fields h).2.2.1]
    simp [applyStatus, hs]
  · intro w2 hs h
    rw [(beginEpisodeUpdateWell_ok_fields h).2.2.1]
    simp [applyStatus, hs]
  · intro w2 hs h
    rw [(beginEpisodeUpdateWell_ok_fields h).2.2.1]
    simp [applyStatus, hs]

/-- C5: control resolution is a function of the declaration alone — a
producer declared ORAT ends with VolumetricSurfaceRate control, phase weights
(oil 1, gas 0, water 0) and the declared oil rate as surface-rate target; an
injector declared RATE with injected phase GAS ends with
VolumetricSurfaceRate control and weights (oil 0, gas 1, water 0). -/
theorem c5_control_resolution :
    ∀ (e : Nat) (dw : DeckWell) (w : Well),
      (dw.isInjector e = false → dw.isProducer e = true →
        (dw.getProductionProperties e).controlMode = .ORAT →
        ∃ w2, beginEpisodeUpdateWell e dw w = .ok w2 ∧
          w2.controlMode = some ControlMode.VolumetricSurfaceRate ∧
          w2.volumetricWeights = some ((1 : ℚ), (0 : ℚ), (0 : ℚ)) ∧
          w2.maximumSurfaceRate = some (dw.getProductionProperties e).OilRate) ∧
      (dw.isInjector e = true → dw.isProducer e = false →
        (dw.getInjectionProperties e).injectorType = .GAS →
        (dw.getInjectionProperties e).controlMode = .RATE →
        ∃ w2, beginEpisodeUpdateWell e dw w = .ok w2 ∧
          w2.controlMode = some ControlMode.VolumetricSurfaceRate ∧
          w2.volumetricWeights = some ((0 : ℚ), (1 : ℚ), (0 : ℚ))) := by
  intro e dw w
  constructor
  · intro hi hp hcm
    refine ⟨finishProducer (dw.getProductionProperties e)
        { applyStatus e dw w with
            wellType := some WellType.Producer
            controlMode := some ControlMode.VolumetricSurfaceRate
            volumetricWeights := some ((1 : ℚ), (0 : ℚ), (0 : ℚ))
            maximumSurfaceRate := some (dw.getProductionProperties e).OilRate },
      ?_, by simp [finishProducer], by simp [finishProducer], by simp [finishProducer]⟩
    simp [beginEpisodeUpdateWell, applyProducerControls, finishProducer, hi, hp, hcm]
  · intro hi hp hit hcm
    refine ⟨{ applyStatus e dw w with
            wellType := some WellType.Injector
            injectedPhaseIdx := some PhaseIdx.gasPhaseIdx
            controlMode := some ControlMode.VolumetricSurfaceRate
            volumetricWeights := some ((0 : ℚ), (1 : ℚ), (0 : ℚ))
            maximumSurfaceRate := some (dw.getInjectionProperties e).surfaceInjectionRate
            maximumReservoirRate := some (dw.getInjectionProperties e).reservoirInjectionRate
            targetBottomHolePressure := some (dw.getInjectionProperties e).BHPLimit
            targetTubingHeadPressure := some ((10 : ℚ) ^ 100) },
      ?_, by simp, by simp⟩
    simp [beginEpisodeUpdateWell, applyInjectorControls, injectorPhase, injectorControl,
          injectorWeights, hi, hp, hit, hcm]

/-- C6: every unsupported declaration is rejected with a thrown error — a
MULTI injector, a GRUP injector or producer, a CRAT producer, and an
undefined control mode (whose message names the offending well) — and a
scheduled, known well with such a declaration makes the whole `beginEpisode`
fail. -/
theorem c6_unsupported_fatal :
    ∀ (e : Nat) (dw : DeckWell) (w : Well),
      (dw.isInjector e = true → dw.isProducer e = false →
        (dw.getInjectionProperties e).injectorType = .MULTI →
        beginEpisodeUpdateWell e dw w =
          .error "Not implemented: Multi-phase injector wells") ∧
      (dw.isInjector e = true → dw.isProducer e = false →
        (dw.getInjectionProperties e).injectorType ≠ .MULTI →
        (dw.getInjectionProperties e).controlMode = .GRUP →
        beginEpisodeUpdateWell e dw w = .error "Not implemented: Well groups") ∧
      (dw.isInjector e = true → dw.isProducer e = false →
        (dw.getInjectionProperties e).injectorType ≠ .MULTI →
        (dw.getInjectionProperties e).controlMode = .CMODE_UNDEFINED →
        beginEpisodeUpdateWell e dw w =
          .error ("Control mode of well " ++ w.name ++ " is undefined.")) ∧
      (dw.isInjector e = false → dw.isProducer e = true →
        (dw.getProductionProperties e).controlMode = .CRAT →
        beginEpisodeUpdateWell e dw w =
          .error "Not implemented: Linearly combined rates") ∧
      (dw.isInjector e = false → dw.isProducer e = true →
        (dw.getProductionProperties e).controlMode = .GRUP →
        beginEpisodeUpdateWell e dw w = .error "Not implemented: Well groups") ∧
      (dw.isInjector e = false → dw.isProducer e = true →
        (dw.getProductionProperties e).controlMode = .CMODE_UNDEFINED →
        beginEpisodeUpdateWell e dw w =
          .error ("Control mode of well " ++ w.name ++ " is undefined.")) ∧
      (∀ (sim : SimCtx) (mgr : Manager) (r : Bool),
        unsupportedDecl sim.episodeIndex dw →
        dw ∈ sim.eclState.getSchedule.getWells sim.episodeIndex →
        hasWell mgr dw.name = true →
        (beginEpisode sim mgr r).isOk = false) := by
  intro e dw w
  refine ⟨?_, ?_, ?_, ?_, ?_, ?_, ?_⟩
  · intro hi hp hit
    simp [beginEpisodeUpdateWell, applyInjectorControls, injectorPhase, hi, hp, hit]
  · intro hi hp hmulti hcm
    cases hit : (dw.getInjectionProperties e).injectorType <;>
      simp_all [beginEpisodeUpdateWell, applyInjectorControls, injectorPhase, injectorControl]
  · intro hi hp hmulti hcm
    cases hit : (dw.getInjectionProperties e).injectorType <;>
      simp_all [beginEpisodeUpdateWell, applyInjectorControls, injectorPhase, injectorControl,
                applyStatus_name]
  · intro hi hp hcm
    simp [beginEpisodeUpdateWell, applyProducerControls, hi, hp, hcm]
  · intro hi hp hcm
    simp [beginEpisodeUpdateWell, applyProducerControls, hi, hp, hcm]
  · intro hi hp hcm
    simp [beginEpisodeUpdateWell, applyProducerControls, applyStatus_name, hi, hp, hcm]
  · intro sim mgr r hdecl hmem hhas
    exact beginEpisode_isOk_false_of_bad (beginEpisodeUpdateWell_unsupported hdecl) hmem hhas

/-- C7: the per-DOF rate aggregation starts from the zero vector and sums the
contributions of the wells: it returns zero on a DOF owned by no well, the single
contribution of the single owner on a DOF owned by exactly one well, and the sum is
invariant under permuting the well evaluation order. -/
theorem c7_total_rates (mgr : Manager) (contrib : Well → Nat → RateVector) (dofIdx : Nat) :
    ((∀ w ∈ mgr.wells, ownsDof w dofIdx = false → contrib w dofIdx = 0) →
      ((∀ w ∈ mgr.wells, ownsDof w dofIdx = false) →
        computeTotalRatesForDof mgr contrib dofIdx = 0) ∧
      (∀ (l1 l2 : List Well) (w0 : Well), mgr.wells = l1 ++ w0 :: l2 →
        ownsDof w0 dofIdx = true → (∀ w ∈ l1 ++ l2, ownsDof w dofIdx = false) →
        computeTotalRatesForDof mgr contrib dofIdx = contrib w0 dofIdx)) ∧
    (∀ ws1 ws2 : List Well, ws1.Perm ws2 →
      sumWellRates contrib dofIdx 0 ws1 = sumWellRates contrib dofIdx 0 ws2) := by
  constructor
  · intro hzero
    constructor
    · intro hnone
      have hz : (mgr.wells.map (fun w => contrib w dofIdx)).sum = 0 := by
        apply List.sum_eq_zero
        intro x hx
        obtain ⟨w, hw, rfl⟩ := List.mem_map.mp hx
        exact hzero w hw (hnone w hw)
      simp [computeTotalRatesForDof, sumWellRates_eq, hz]
    · intro l1 l2 w0 hsplit howns hrest
      have h1 : (l1.map (fun w => contrib w dofIdx)).sum = 0 := by
        apply List.sum_eq_zero
        intro x hx
        obtain ⟨w, hw, rfl⟩ := List.mem_map.mp hx
        exact hzero w (by rw [hsplit]; exact List.mem_append_left _ hw)
          (hrest w (List.mem_append_left _ hw))
      have h2 : (l2.map (fun w => contrib w dofIdx)).sum = 0 := by
        apply List.sum_eq_zero
        intro x hx
        obtain ⟨w, hw, rfl⟩ := List.mem_map.mp hx
        exact hzero w (by rw [hsplit]; exact List.mem_append_right _ (List.mem_cons_of_mem _ hw))
          (hrest w (List.mem_append_right _ hw))
      simp [computeTotalRatesForDof, sumWellRates_eq, hsplit, h1, h2]
  · intro ws1 ws2 hperm
    rw [sumWellRates_eq, sumWellRates_eq]
    exact congrArg (0 + .) ((hperm.map _).sum_eq)

/-- C10 witness: the AUTO-status producer is accepted and ends Open. -/
theorem c10_auto_status_witness :
    exAutoWell.getStatus 0 = WellStatusEnum.AUTO ∧
    beginEpisodeUpdateWell 0 exAutoWell (initWell "AW") = .ok exAutoResult ∧
    exAutoResult.wellStatus = some WellStatus.Open := by
  have h : beginEpisodeUpdateWell 0 exAutoWell (initWell "AW") = .ok exAutoResult := rfl
  exact ⟨rfl, h, (c10_auto_status 0 exAutoWell (initWell "AW")).2.1 exAutoResult rfl h⟩

/-- C5 witness: concrete ORAT producer and GAS RATE injector resolutions. -/
theorem c5_control_resolution_witness :
    (∃ w2, beginEpisodeUpdateWell 0 (mkPrdWell "P" .ORAT []) (initWell "P") = .ok w2 ∧
      w2.controlMode = some ControlMode.VolumetricSurfaceRate ∧
      w2.volumetricWeights = some ((1 : ℚ), (0 : ℚ), (0 : ℚ)) ∧
      w2.maximumSurfaceRate =
        some ((mkPrdWell "P" .ORAT []).getProductionProperties 0).OilRate) ∧
    (∃ w2, beginEpisodeUpdateWell 0 (mkInjWell "I" .GAS .RATE []) (initWell "I") = .ok w2 ∧
      w2.controlMode = some ControlMode.VolumetricSurfaceRate ∧
      w2.volumetricWeights = some ((0 : ℚ), (1 : ℚ), (0 : ℚ))) := by
  constructor
  · exact (c5_control_resolution 0 (mkPrdWell "P" .ORAT []) (initWell "P")).1 rfl rfl rfl
  · exact (c5_control_resolution 0 (mkInjWell "I" .GAS .RATE []) (initWell "I")).2 rfl rfl rfl rfl

/-- C6 witness: each unsupported declaration rejected at a concrete well, and
a whole-`beginEpisode` failure for a scheduled CRAT producer. -/
theorem c6_unsupported_fatal_witness :
    beginEpisodeUpdateWell 0 (mkInjWell "MI" .MULTI .RATE []) (initWell "MI") =
      .error "Not implemented: Multi-phase injector wells" ∧
    beginEpisodeUpdateWell 0 (mkInjWell "GI" .WATER .GRUP []) (initWell "GI") =
      .error "Not implemented: Well groups" ∧
    beginEpisodeUpdateWell 0 (mkInjWell "UI" .WATER .CMODE_UNDEFINED []) (initWell "UI") =
      .error ("Control mode of well " ++ (initWell "UI").name ++ " is undefined.") ∧
    beginEpisodeUpdateWell 0 (mkPrdWell "CP" .CRAT []) (initWell "CP") =
      .error "Not implemented: Linearly combined rates" ∧
    beginEpisodeUpdateWell 0 (mkPrdWell "GP" .GRUP []) (initWell "GP") =
      .error "Not implemented: Well groups" ∧
    beginEpisodeUpdateWell 0 (mkPrdWell "UP" .CMODE_UNDEFINED []) (initWell "UP") =
      .error ("Control mode of well " ++ (initWell "UP").name ++ " is undefined.") ∧
    (beginEpisode exC6Sim exC6Mgr false).isOk = false := by
  refine ⟨?_, ?_, ?_, ?_, ?_, ?_, ?_⟩
  · exact (c6_unsupported_fatal 0 (mkInjWell "MI" .MULTI .RATE []) (initWell "MI")).1 rfl rfl rfl
  · exact (c6_unsupported_fatal 0 (mkInjWell "GI" .WATER .GRUP []) (initWell "GI")).2.1
      rfl rfl (by decide) rfl
  · exact (c6_unsupported_fatal 0 (mkInjWell "UI" .WATER .CMODE_UNDEFINED [])
      (initWell "UI")).2.2.1 rfl rfl (by decide) rfl
  · exact (c6_unsupported_fatal 0 (mkPrdWell "CP" .CRAT []) (initWell "CP")).2.2.2.1 rfl rfl rfl
  · exact (c6_unsupported_fatal 0 (mkPrdWell "GP" .GRUP []) (initWell "GP")).2.2.2.2.1 rfl rfl rfl
  · exact (c6_unsupported_fatal 0 (mkPrdWell "UP" .CMODE_UNDEFINED [])
      (initWell "UP")).2.2.2.2.2.1 rfl rfl rfl
  · exact (c6_unsupported_fatal 0 (mkPrdWell "CP" .CRAT []) (initWell "X")).2.2.2.2.2.2
      exC6Sim exC6Mgr false (Or.inr ⟨rfl, rfl, Or.inl rfl⟩)
      (List.mem_singleton.mpr rfl) (by decide)

/-- C7 witness: zero total on an unowned DOF, single-owner total on DOF 0,
and order independence for the two-well arena. -/
theorem c7_total_rates_witness :
    computeTotalRatesForDof exRatesMgr exContrib 5 = 0 ∧
    computeTotalRatesForDof exRatesMgr exContrib 0 = exContrib exWellA 0 ∧
    sumWellRates exContrib 0 0 [exWellA, exWellB] =
      sumWellRates exContrib 0 0 [exWellB, exWellA] := by
  refine ⟨?_, ?_, ?_⟩
  · exact ((c7_total_rates exRatesMgr exContrib 5).1 (by decide)).1 (by decide)
  · exact ((c7_total_rates exRatesMgr exContrib 0).1 (by decide)).2
      [] [exWellB] exWellA rfl (by decide) (by decide)
  · exact (c7_total_rates exRatesMgr exContrib 0).2 [exWellA, exWellB] [exWellB, exWellA]
      (by decide)

/-! ### Completions-map lemmas (claim C3) -/

lemma cmapLookup_isSome_iff (m : List (Int × Completion × Nat)) (k : Int) :
    (cmapLookup m k).isSome = true ↔ k ∈ m.map Prod.fst := by
  induction m with
  | nil => simp [cmapLookup]
  | cons p rest ih =>
    obtain ⟨k0, v⟩ := p
    by_cases h : k0 = k
    · subst h; simp [cmapLookup]
    · simp only [cmapLookup, if_neg h, List.map_cons, List.mem_cons]
      rw [ih]
      constructor
      · exact Or.inr
      · rintro (rfl | hm)
        · exact absurd rfl h
        · exact hm

lemma insertCompletions_keys {wIdx : Nat} {nx ny : Int} :
    ∀ (cs : List Completion) (m0 m : List (Int × Completion × Nat)),
      insertCompletions wIdx nx ny cs m0 = .ok m →
      m.map Prod.fst = m0.map Prod.fst ++ cs.map (cartIdxOf nx ny) := by
  intro cs
  induction cs with
  | nil => intro m0 m h; unfold insertCompletions at h; cases h; simp
  | cons c rest ih =>
    intro m0 m h
    unfold insertCompletions at h
    by_cases hl : (cmapLookup m0 (cartIdxOf nx ny c)).isSome = true
    · rw [if_pos hl] at h; simp at h
    · rw [if_neg hl] at h
      rw [ih _ _ h]
      simp

lemma insertCompletions_isOk_iff {wIdx : Nat} {nx ny : Int} :
    ∀ (cs : List Completion) (m0 : List (Int × Completion × Nat)),
      (m0.map Prod.fst).Nodup →
      ((insertCompletions wIdx nx ny cs m0).isOk = true ↔
        (m0.map Prod.fst ++ cs.map (cartIdxOf nx ny)).Nodup) := by
  intro cs
  induction cs with
  | nil =>
    intro m0 h0
    simp [insertCompletions, Except.isOk, Except.toBool, h0]
  | cons c rest ih =>
    intro m0 h0
    unfold insertCompletions
    simp only [List.map_cons]
    by_cases hl : (cmapLookup m0 (cartIdxOf nx ny c)).isSome = true
    · rw [if_pos hl]
      have hmem : cartIdxOf nx ny c ∈ m0.map Prod.fst := (cmapLookup_isSome_iff _ _).mp hl
      constructor
      · intro h; simp [Except.isOk, Except.toBool] at h
      · intro hnd
        exfalso
        rcases List.nodup_append.mp hnd with ⟨h1, h2, hdisj⟩
        exact hdisj hmem (List.mem_cons_self _ _)
    · rw [if_neg hl]
      have hnmem : cartIdxOf nx ny c ∉ m0.map Prod.fst := fun hmem =>
        hl ((cmapLookup_isSome_iff _ _).mpr hmem)
      have h0b : ((m0 ++ [(cartIdxOf nx ny c, c, wIdx)]).map Prod.fst).Nodup := by
        simp [List.nodup_append, h0, hnmem]
      rw [ih _ h0b]
      simp only [List.map_append, List.map_cons, List.map_nil]
      rw [List.append_assoc, List.singleton_append]

lemma buildCompletionsMap_keys {mgr : Manager} {nx ny : Int} {rsi : Nat} :
    ∀ (dws : List DeckWell) (m0 m : List (Int × Completion × Nat)),
      buildCompletionsMap mgr nx ny rsi dws m0 = .ok m →
      m.map Prod.fst = m0.map Prod.fst ++ knownCartIdxs mgr nx ny rsi dws := by
  intro dws
  induction dws with
  | nil => intro m0 m h; unfold buildCompletionsMap at h; cases h; simp [knownCartIdxs]
  | cons d rest ih =>
    intro m0 m h
    unfold buildCompletionsMap at h
    by_cases hd : hasWell mgr d.name
    · rw [if_pos hd] at h
      obtain ⟨i, hwi, _⟩ := wellIndex_ok_of_hasWell hd
      rw [hwi] at h
      simp only [] at h
      cases hins : insertCompletions i nx ny (d.getCompletions rsi) m0 with
      | error s => rw [hins] at h; simp at h
      | ok m2 =>
        rw [hins] at h
        have hk2 := insertCompletions_keys _ _ _ hins
        rw [ih _ _ h, hk2]
        simp [knownCartIdxs, List.filter_cons, hd, List.append_assoc]
    · rw [if_neg hd] at h
      rw [ih _ _ h]
      simp [knownCartIdxs, List.filter_cons, hd]

lemma buildCompletionsMap_isOk_iff {mgr : Manager} {nx ny : Int} {rsi : Nat} :
    ∀ (dws : List DeckWell) (m0 : List (Int × Completion × Nat)),
      (m0.map Prod.fst).Nodup →
      ((buildCompletionsMap mgr nx ny rsi dws m0).isOk = true ↔
        (m0.map Prod.fst ++ knownCartIdxs mgr nx ny rsi dws).Nodup) := by
  intro dws
  induction dws with
  | nil =>
    intro m0 h0
    simp [buildCompletionsMap, Except.isOk, Except.toBool, knownCartIdxs, h0]
  | cons d rest ih =>
    intro m0 h0
    unfold buildCompletionsMap
    by_cases hd : hasWell mgr d.name
    · rw [if_pos hd]
      obtain ⟨i, hwi, _⟩ := wellIndex_ok_of_hasWell hd
      simp only [hwi]
      have hknown : knownCartIdxs mgr nx ny rsi (d :: rest) =
          (d.getCompletions rsi).map (cartIdxOf nx ny) ++ knownCartIdxs mgr nx ny rsi rest := by
        simp [knownCartIdxs, List.filter_cons, hd]
      rw [hknown]
      cases hins : insertCompletions i nx ny (d.getCompletions rsi) m0 with
      | error s =>
        have hne : ¬ (m0.map Prod.fst ++ (d.getCompletions rsi).map (cartIdxOf nx ny)).Nodup := by
          intro hnd
          have := (@insertCompletions_isOk_iff i nx ny _ _ h0).mpr hnd
          rw [hins] at this
          simp [Except.isOk, Except.toBool] at this
        constructor
        · intro h; simp [Except.isOk, Except.toBool] at h
        · intro hnd
          exfalso
          apply hne
          rw [← List.append_assoc] at hnd
          exact hnd.sublist (List.sublist_append_left _ _)
      | ok m2 =>
        have hok2 : (insertCompletions i nx ny (d.getCompletions rsi) m0).isOk = true := by
          rw [hins]; rfl
        have hnd2 := (@insertCompletions_isOk_iff i nx ny _ _ h0).mp hok2
        have hk2 := insertCompletions_keys _ _ _ hins
        rw [ih _ (by rw [hk2]; exact hnd2)]
        rw [hk2, List.append_assoc]
    · rw [if_neg hd]
      rw [ih _ h0]
      have hknown : knownCartIdxs mgr nx ny rsi (d :: rest) =
          knownCartIdxs mgr nx ny rsi rest := by
        simp [knownCartIdxs, List.filter_cons, hd]
      rw [hknown]

/-- C3: a successfully built completions map has pairwise distinct Cartesian
keys, and whenever two completions of manager-known wells share a logical
cell coordinate the construction aborts with the one-cell-one-well
assertion. -/
theorem c3_completions_map (sim : SimCtx) (mgr : Manager) (i : Nat) :
    (∀ m, computeWellCompletionsMap sim mgr i = .ok m → (m.map Prod.fst).Nodup) ∧
    (¬ (knownCartIdxs mgr sim.eclState.NX sim.eclState.NY i
          (sim.eclState.getSchedule.getWells i)).Nodup →
      ∃ s, computeWellCompletionsMap sim mgr i = .error s) := by
  constructor
  · intro m h
    have hk := buildCompletionsMap_keys _ _ _ h
    have hok : (buildCompletionsMap mgr sim.eclState.NX sim.eclState.NY i
        (sim.eclState.getSchedule.getWells i) []).isOk = true := by
      unfold computeWellCompletionsMap at h
      rw [h]; rfl
    have hnd := (buildCompletionsMap_isOk_iff _ _ (by simp)).mp hok
    rw [hk]
    simpa using hnd
  · intro hdup
    cases hc : computeWellCompletionsMap sim mgr i with
    | error s => exact ⟨s, rfl⟩
    | ok m =>
      exfalso
      apply hdup
      have hok : (buildCompletionsMap mgr sim.eclState.NX sim.eclState.NY i
          (sim.eclState.getSchedule.getWells i) []).isOk = true := by
        unfold computeWellCompletionsMap at hc
        rw [hc]; rfl
      have hnd := (buildCompletionsMap_isOk_iff _ _ (by simp)).mp hok
      simpa using hnd

/-- C3 witness: the sample two-well map is keyed without duplicates, and the
deliberately duplicated coordinate (1,1,0) shared by wells D1 and D2 aborts
the construction. -/
theorem c3_completions_map_witness :
    (exCmap.map Prod.fst).Nodup ∧
    ∃ s, computeWellCompletionsMap exC3Sim exC3Mgr 0 = .error s := by
  constructor
  · exact (c3_completions_map exSim exMgr 0).1 exCmap rfl
  · exact (c3_completions_map exC3Sim exC3Mgr 0).2 (by decide)

/-! ### Topology-walk lemmas (claims C9 and C8) -/

lemma modifyWell_length : ∀ (ws : List Well) (i : Nat) (f : Well → Well),
    (modifyWell ws i f).length = ws.length := by
  intro ws
  induction ws with
  | nil => intro i f; rfl
  | cons w rest ih =>
    intro i f
    cases i with
    | zero => simp [modifyWell]
    | succ n => simp [modifyWell, ih]

lemma modifyWell_oob : ∀ (ws : List Well) (i : Nat) (f : Well → Well),
    ws.length ≤ i → modifyWell ws i f = ws := by
  intro ws
  induction ws with
  | nil => intro i f _; rfl
  | cons w rest ih =>
    intro i f h
    cases i with
    | zero => simp at h
    | succ n => simp [modifyWell, ih n f (by simpa using h)]

lemma getD_modifyWell_ne : ∀ (ws : List Well) (i j : Nat) (f : Well → Well) (d : Well),
    i ≠ j → (modifyWell ws i f).getD j d = ws.getD j d := by
  intro ws
  induction ws with
  | nil => intro i j f d _; rfl
  | cons w rest ih =>
    intro i j f d hij
    cases i with
    | zero =>
      cases j with
      | zero => exact absurd rfl hij
      | succ m => simp [modifyWell]
    | succ n =>
      cases j with
      | zero => simp [modifyWell]
      | succ m => simp only [modifyWell, List.getD_cons_succ]; exact ih n m f d (by omega)

lemma getD_modifyWell_self : ∀ (ws : List Well) (i : Nat) (f : Well → Well) (d : Well),
    i < ws.length → (modifyWell ws i f).getD i d = f (ws.getD i d) := by
  intro ws
  induction ws with
  | nil => intro i f d h; simp at h
  | cons w rest ih =>
    intro i f d h
    cases i with
    | zero => simp [modifyWell]
    | succ n => simp only [modifyWell, List.getD_cons_succ]; exact ih n f d (by simpa using h)

lemma getD_map_clearWell (ws : List Well) : ∀ (i : Nat) (d : Well), i < ws.length →
    (ws.map clearWell).getD i d = clearWell (ws.getD i d) := by
  induction ws with
  | nil => intro i d h; simp at h
  | cons w rest ih =>
    intro i d h
    cases i with
    | zero => simp
    | succ n =>
      simp only [List.map_cons, List.getD_cons_succ]
      exact ih n d (by simpa using h)

lemma mem_insertSet (l : List Nat) (x j : Nat) : j ∈ insertSet l x ↔ j ∈ l ∨ j = x := by
  unfold insertSet
  by_cases h : x ∈ l
  · rw [if_pos h]
    constructor
    · exact Or.inl
    · rintro (hj | rfl)
      · exact hj
      · exact h
  · rw [if_neg h]
    simp

lemma applyHits_append : ∀ (h1 h2 : List (Nat × Nat)) (acc : List Well × List Nat),
    applyHits (h1 ++ h2) acc = applyHits h2 (applyHits h1 acc) := by
  intro h1
  induction h1 with
  | nil => intro h2 acc; rfl
  | cons p rest ih =>
    intro h2 acc
    obtain ⟨g, wIdx⟩ := p
    obtain ⟨ws, regd⟩ := acc
    simp [applyHits, ih]

lemma topoWalkDofs_eq (cid : Nat → Int) (cmap : List (Int × Completion × Nat)) :
    ∀ (ds : List Nat) (acc : List Well × List Nat),
      topoWalkDofs cid cmap ds acc = applyHits (dofHits cid cmap ds) acc := by
  intro ds
  induction ds with
  | nil => intro acc; obtain ⟨ws, regd⟩ := acc; rfl
  | cons g rest ih =>
    intro acc
    obtain ⟨ws, regd⟩ := acc
    unfold topoWalkDofs dofHits
    cases cmapLookup cmap (cid g) with
    | none => exact ih _
    | some v =>
      obtain ⟨c, wIdx⟩ := v
      simp [applyHits, ih]

lemma topoWalkElems_eq (cid : Nat → Int) (cmap : List (Int × Completion × Nat)) :
    ∀ (es : List GridElement) (acc : List Well × List Nat),
      topoWalkElems cid cmap es acc = applyHits (elemHits cid cmap es) acc := by
  intro es
  induction es with
  | nil => intro acc; obtain ⟨ws, regd⟩ := acc; rfl
  | cons e rest ih =>
    intro acc
    unfold topoWalkElems elemHits
    by_cases he : e.interior
    · rw [if_pos he, if_pos he, applyHits_append, ih, topoWalkDofs_eq]
    · rw [if_neg he, if_neg he, ih]
      rfl

lemma applyHits_wells_length : ∀ (hits : List (Nat × Nat)) (ws : List Well) (regd : List Nat),
    (applyHits hits (ws, regd)).1.length = ws.length := by
  intro hits
  induction hits with
  | nil => intro ws regd; rfl
  | cons p rest ih =>
    intro ws regd
    obtain ⟨g, wIdx⟩ := p
    simp [applyHits, ih, modifyWell_length]

lemma name_getD_modifyWell_addDof (ws : List Well) (i j g : Nat) (d : Well) :
    ((modifyWell ws i (addDofTo g)).getD j d).name = (ws.getD j d).name := by
  by_cases hij : i = j
  · subst hij
    by_cases hlen : i < ws.length
    · rw [getD_modifyWell_self _ _ _ _ hlen]; rfl
    · rw [modifyWell_oob _ _ _ (le_of_not_lt hlen)]
  · rw [getD_modifyWell_ne _ _ _ _ _ hij]

lemma applyHits_name : ∀ (hits : List (Nat × Nat)) (ws : List Well) (regd : List Nat)
    (i : Nat) (d : Well),
    (((applyHits hits (ws, regd)).1.getD i d)).name = (ws.getD i d).name := by
  intro hits
  induction hits with
  | nil => intro ws regd i d; rfl
  | cons p rest ih =>
    intro ws regd i d
    obtain ⟨g, wIdx⟩ := p
    simp only [applyHits]
    rw [ih]
    exact name_getD_modifyWell_addDof ws wIdx i g d

lemma dofIds_addDofTo (g : Nat) (w : Well) : dofIds (addDofTo g w) = dofIds w ++ [g] := by
  simp [dofIds, addDofTo]

lemma applyHits_dofIds : ∀ (hits : List (Nat × Nat)) (ws : List Well) (regd : List Nat)
    (i : Nat) (d : Well), i < ws.length →
    dofIds ((applyHits hits (ws, regd)).1.getD i d) =
      dofIds (ws.getD i d) ++ (hits.filter (fun p => p.2 = i)).map Prod.fst := by
  intro hits
  induction hits with
  | nil => intro ws regd i d _; simp [applyHits]
  | cons p rest ih =>
    intro ws regd i d hlen
    obtain ⟨g, wIdx⟩ := p
    simp only [applyHits]
    rw [ih _ _ _ _ (by rw [modifyWell_length]; exact hlen)]
    by_cases hw : wIdx = i
    · subst hw
      rw [getD_modifyWell_self _ _ _ _ hlen, dofIds_addDofTo]
      simp [List.filter_cons, List.append_assoc]
    · rw [getD_modifyWell_ne _ _ _ _ _ hw]
      simp [List.filter_cons, hw]

lemma applyHits_regd_mem : ∀ (hits : List (Nat × Nat)) (ws : List Well) (regd : List Nat)
    (j : Nat),
    j ∈ (applyHits hits (ws, regd)).2 ↔ j ∈ regd ∨ j ∈ hits.map Prod.snd := by
  intro hits
  induction hits with
  | nil => intro ws regd j; simp [applyHits]
  | cons p rest ih =>
    intro ws regd j
    obtain ⟨g, wIdx⟩ := p
    simp only [applyHits]
    rw [ih, mem_insertSet]
    simp [or_assoc]

lemma assignedDofsSpec_ne_nil_iff (sim : SimCtx) (cmap : List (Int × Completion × Nat))
    (j : Nat) :
    assignedDofsSpec sim cmap j ≠ [] ↔
      j ∈ (elemHits sim.cartesianCellId cmap sim.elements).map Prod.snd := by
  unfold assignedDofsSpec
  constructor
  · intro h
    rcases List.exists_mem_of_ne_nil _ h with ⟨x, hx⟩
    rcases List.mem_map.mp hx with ⟨p, hp, rfl⟩
    have hp2 := List.mem_filter.mp hp
    exact List.mem_map.mpr ⟨p, hp2.1, by simpa using hp2.2⟩
  · intro hm
    rcases List.mem_map.mp hm with ⟨p, hp, hpj⟩
    have hmem : p ∈ (elemHits sim.cartesianCellId cmap sim.elements).filter
        (fun q => q.2 = j) := List.mem_filter.mpr ⟨hp, by simp [hpj]⟩
    intro h
    rw [List.map_eq_nil_iff] at h
    exact (List.ne_nil_of_mem hmem) h

/-- C9: a topology rebuild keeps the well arena size and the name of each well,
replaces the owned-DOF set of every well with exactly the interior-element DOFs the
completions map assigns to it (so the old sets are cleared), and leaves the
auxiliary-module registry holding exactly the wells that received at least one
DOF — a well with zero local DOFs is not registered and nothing else is. -/
theorem c9_topology_rebuild (sim : SimCtx) (mgr : Manager)
    (cmap : List (Int × Completion × Nat)) :
    (updateWellTopology sim mgr cmap).wells.length = mgr.wells.length ∧
    (∀ i, i < mgr.wells.length →
      ((updateWellTopology sim mgr cmap).wells.getD i (initWell "")).name =
          (mgr.wells.getD i (initWell "")).name ∧
        dofIds ((updateWellTopology sim mgr cmap).wells.getD i (initWell "")) =
          assignedDofsSpec sim cmap i) ∧
    (∀ j, j ∈ (updateWellTopology sim mgr cmap).model.auxiliaryModules ↔
      assignedDofsSpec sim cmap j ≠ []) := by
  unfold updateWellTopology
  simp only [topoWalkElems_eq]
  refine ⟨?_, ?_, ?_⟩
  · rw [applyHits_wells_length]
    simp
  · intro i hi
    constructor
    · rw [applyHits_name, getD_map_clearWell _ _ _ (by simpa using hi)]
      rfl
    · rw [applyHits_dofIds _ _ _ _ _ (by simpa using hi),
          getD_map_clearWell _ _ _ (by simpa using hi)]
      simp [clearWell, dofIds, assignedDofsSpec]
  · intro j
    rw [applyHits_regd_mem, assignedDofsSpec_ne_nil_iff]
    simp

/-- C9 witness: concrete rebuild on the sample grid — arena size kept, well 0
gets exactly its assigned DOFs, and index 5 is registered only if it received
a DOF. -/
theorem c9_topology_rebuild_witness :
    (updateWellTopology exSim exMgr exCmap).wells.length = exMgr.wells.length ∧
    dofIds ((updateWellTopology exSim exMgr exCmap).wells.getD 0 (initWell "")) =
      assignedDofsSpec exSim exCmap 0 ∧
    ((5 : Nat) ∈ (updateWellTopology exSim exMgr exCmap).model.auxiliaryModules ↔
      assignedDofsSpec exSim exCmap 5 ≠ []) :=
  ⟨(c9_topology_rebuild exSim exMgr exCmap).1,
   ((c9_topology_rebuild exSim exMgr exCmap).2.1 0 (by decide)).2,
   (c9_topology_rebuild exSim exMgr exCmap).2.2 5⟩

/-! ### List.set helpers and phase invariants (claims C4, C8, C2) -/

lemma set_oob (ws : List Well) : ∀ (i : Nat) (a : Well), ws.length ≤ i → ws.set i a = ws := by
  induction ws with
  | nil => intro i a _; rfl
  | cons w rest ih =>
    intro i a h
    cases i with
    | zero => simp at h
    | succ n => simp [List.set, ih n a (by simpa using h)]

lemma getD_set_ne (ws : List Well) : ∀ (i j : Nat) (a d : Well), i ≠ j →
    (ws.set i a).getD j d = ws.getD j d := by
  induction ws with
  | nil => intro i j a d _; rfl
  | cons w rest ih =>
    intro i j a d hij
    cases i with
    | zero =>
      cases j with
      | zero => exact absurd rfl hij
      | succ m => simp [List.set]
    | succ n =>
      cases j with
      | zero => simp [List.set]
      | succ m =>
        simp only [List.set, List.getD_cons_succ]
        exact ih n m a d (by omega)

lemma getD_set_self (ws : List Well) : ∀ (i : Nat) (a d : Well), i < ws.length →
    (ws.set i a).getD i d = a := by
  induction ws with
  | nil => intro i a d h; simp at h
  | cons w rest ih =>
    intro i a d h
    cases i with
    | zero => simp [List.set]
    | succ n =>
      simp only [List.set, List.getD_cons_succ]
      exact ih n a d (by simpa using h)

lemma wellsLoop_preserves_type {e : Nat} :
    ∀ (dws : List DeckWell) (mgr mgr2 : Manager) (i : Nat),
      beginEpisodeWellsLoop e mgr dws = .ok mgr2 →
      ((mgr.wells.getD i (initWell "")).wellType = some WellType.Injector ∨
       (mgr.wells.getD i (initWell "")).wellType = some WellType.Producer) →
      ((mgr2.wells.getD i (initWell "")).wellType = some WellType.Injector ∨
       (mgr2.wells.getD i (initWell "")).wellType = some WellType.Producer) := by
  intro dws
  induction dws with
  | nil =>
    intro mgr mgr2 i h hp
    unfold beginEpisodeWellsLoop at h
    cases h
    exact hp
  | cons d rest ih =>
    intro mgr mgr2 i h hp
    unfold beginEpisodeWellsLoop at h
    by_cases hd : hasWell mgr d.name
    · rw [if_pos hd] at h
      obtain ⟨k, hwi, _⟩ := wellIndex_ok_of_hasWell hd
      rw [hwi] at h
      simp only [] at h
      cases hupd : beginEpisodeUpdateWell e d (mgr.wells.getD k (initWell "")) with
      | error s => rw [hupd] at h; simp at h
      | ok w2 =>
        rw [hupd] at h
        simp only [] at h
        apply ih _ _ i h
        show ((mgr.wells.set k w2).getD i (initWell "")).wellType = _ ∨
          ((mgr.wells.set k w2).getD i (initWell "")).wellType = _
        by_cases hk : k = i
        · subst hk
          by_cases hlen : k < mgr.wells.length
          · rw [getD_set_self _ _ _ _ hlen]
            exact (beginEpisodeUpdateWell_ok_fields hupd).2.2.2
          · rw [set_oob _ _ _ (le_of_not_lt hlen)]
            exact hp
        · rw [getD_set_ne _ _ _ _ _ hk]
          exact hp
    · rw [if_neg hd] at h
      exact ih _ _ i h hp

lemma wellsLoop_sets_type {e : Nat} :
    ∀ (dws : List DeckWell) (mgr mgr2 : Manager) (dw : DeckWell) (i : Nat),
      beginEpisodeWellsLoop e mgr dws = .ok mgr2 →
      dw ∈ dws →
      lookupName mgr.wellNameToIndex dw.name = some i →
      i < mgr.wells.length →
      ((mgr2.wells.getD i (initWell "")).wellType = some WellType.Injector ∨
       (mgr2.wells.getD i (initWell "")).wellType = some WellType.Producer) := by
  intro dws
  induction dws with
  | nil => intro mgr mgr2 dw i h hmem; simp at hmem
  | cons d rest ih =>
    intro mgr mgr2 dw i h hmem hlook hlen
    unfold beginEpisodeWellsLoop at h
    rcases List.mem_cons.mp hmem with heq | hmem2
    · subst heq
      have hd : hasWell mgr dw.name = true := by
        unfold hasWell; rw [hlook]; rfl
      rw [if_pos hd] at h
      obtain ⟨k, hwi, hlk⟩ := wellIndex_ok_of_hasWell hd
      have hki : k = i := by
        rw [hlook] at hlk
        injection hlk with hv
        exact hv.symm
      subst hki
      rw [hwi] at h
      simp only [] at h
      cases hupd : beginEpisodeUpdateWell e dw (mgr.wells.getD k (initWell "")) with
      | error s => rw [hupd] at h; simp at h
      | ok w2 =>
        rw [hupd] at h
        simp only [] at h
        apply wellsLoop_preserves_type rest _ _ k h
        show ((mgr.wells.set k w2).getD k (initWell "")).wellType = _ ∨
          ((mgr.wells.set k w2).getD k (initWell "")).wellType = _
        rw [getD_set_self _ _ _ _ hlen]
        exact (beginEpisodeUpdateWell_ok_fields hupd).2.2.2
    · by_cases hd : hasWell mgr d.name
      · rw [if_pos hd] at h
        obtain ⟨k, hwi, _⟩ := wellIndex_ok_of_hasWell hd
        rw [hwi] at h
        simp only [] at h
        cases hupd : beginEpisodeUpdateWell e d (mgr.wells.getD k (initWell "")) with
        | error s => rw [hupd] at h; simp at h
        | ok w2 =>
          rw [hupd] at h
          simp only [] at h
          exact ih _ _ dw i h hmem2 hlook (by simpa [List.length_set] using hlen)
      · rw [if_neg hd] at h
        exact ih _ _ dw i h hmem2 hlook hlen

lemma updateWellTopology_length (sim : SimCtx) (mgr : Manager)
    (cmap : List (Int × Completion × Nat)) :
    (updateWellTopology sim mgr cmap).wells.length = mgr.wells.length := by
  unfold updateWellTopology
  simp only [topoWalkElems_eq]
  show (applyHits _ (mgr.wells.map clearWell, [])).1.length = _
  rw [applyHits_wells_length]
  simp

lemma applyRefDepths_length : ∀ (dws : List DeckWell) (mgr mgr2 : Manager),
    applyRefDepths mgr dws = .ok mgr2 → mgr2.wells.length = mgr.wells.length := by
  intro dws
  induction dws with
  | nil =>
    intro mgr mgr2 h
    unfold applyRefDepths at h
    cases h; rfl
  | cons d rest ih =>
    intro mgr mgr2 h
    unfold applyRefDepths at h
    by_cases hd : d.getRefDepthDefaulted
    · rw [if_pos hd] at h; exact ih _ _ h
    · rw [if_neg hd] at h
      cases hwi : wellIndex mgr d.name with
      | error s => rw [hwi] at h; simp at h
      | ok i =>
        rw [hwi] at h
        rw [ih _ _ h]
        show (modifyWell mgr.wells i _).length = _
        exact modifyWell_length _ _ _

lemma paramWalkDofs_length (cid : Nat → Int) (cmap : List (Int × Completion × Nat)) :
    ∀ (ds : List Nat) (ws : List Well), (paramWalkDofs cid cmap ds ws).length = ws.length := by
  intro ds
  induction ds with
  | nil => intro ws; rfl
  | cons g rest ih =>
    intro ws
    unfold paramWalkDofs
    cases cmapLookup cmap (cid g) with
    | none => exact ih ws
    | some v =>
      obtain ⟨c, wIdx⟩ := v
      simp only []
      rw [ih]
      cases c.diameter <;> cases c.connectionTransmissibilityFactor <;>
        simp [modifyWell_length] <;> split <;> simp [modifyWell_length]

lemma paramWalkElems_length (cid : Nat → Int) (cmap : List (Int × Completion × Nat)) :
    ∀ (es : List GridElement) (ws : List Well),
      (paramWalkElems cid cmap es ws).length = ws.length := by
  intro es
  induction es with
  | nil => intro ws; rfl
  | cons e rest ih =>
    intro ws
    unfold paramWalkElems
    by_cases he : e.interior
    · rw [if_pos he, ih, paramWalkDofs_length]
    · rw [if_neg he, ih]

lemma updateWellParameters_length {sim : SimCtx} {mgr mgr2 : Manager} {i : Nat}
    {cmap : List (Int × Completion × Nat)}
    (h : updateWellParameters sim mgr i cmap = .ok mgr2) :
    mgr2.wells.length = mgr.wells.length := by
  unfold updateWellParameters at h
  cases hr : applyRefDepths mgr (sim.eclState.getSchedule.getWells i) with
  | error s => rw [hr] at h; simp at h
  | ok mgrA =>
    rw [hr] at h
    injection h with h2
    rw [← h2]
    show (paramWalkElems _ _ _ mgrA.wells).length = _
    rw [paramWalkElems_length]
    exact applyRefDepths_length _ _ _ hr

lemma beginEpisodeRebuild_length (sim : SimCtx) (mgr : Manager) (r : Bool)
    (cmap : List (Int × Completion × Nat)) :
    (beginEpisodeRebuild sim mgr r cmap).wells.length = mgr.wells.length := by
  unfold beginEpisodeRebuild
  split
  · exact updateWellTopology_length sim mgr cmap
  · rfl

/-- C4: after a successful `beginEpisode`, every manager well named in the
schedule of the interval ends with its type set to exactly one of Injector or
Producer; and a scheduled, known well flagged as both or neither makes
`beginEpisode` fail on the consistency assertion. -/
theorem c4_exactly_one_type (sim : SimCtx) (mgr : Manager) (r : Bool) :
    (∀ mgr2, beginEpisode sim mgr r = .ok mgr2 →
      ∀ dw ∈ sim.eclState.getSchedule.getWells sim.episodeIndex,
        ∀ i, lookupName mgr.wellNameToIndex dw.name = some i → i < mgr.wells.length →
          ((mgr2.wells.getD i (initWell "")).wellType = some WellType.Injector ∨
           (mgr2.wells.getD i (initWell "")).wellType = some WellType.Producer)) ∧
    (∀ dw ∈ sim.eclState.getSchedule.getWells sim.episodeIndex,
      hasWell mgr dw.name = true →
      dw.isInjector sim.episodeIndex = dw.isProducer sim.episodeIndex →
      (beginEpisode sim mgr r).isOk = false) := by
  constructor
  · intro mgr2 h dw hmem i hlook hlen
    unfold beginEpisode at h
    cases hc : computeWellCompletionsMap sim mgr sim.episodeIndex with
    | error s => rw [hc] at h; simp at h
    | ok cmap =>
      rw [hc] at h
      simp only [] at h
      cases hp : updateWellParameters sim (beginEpisodeRebuild sim mgr r cmap)
          sim.episodeIndex cmap with
      | error s => rw [hp] at h; simp at h
      | ok mgrB =>
        rw [hp] at h
        simp only [] at h
        apply wellsLoop_sets_type _ _ _ dw i h hmem
        · rw [updateWellParameters_nameMap hp, beginEpisodeRebuild_nameMap]
          exact hlook
        · rw [updateWellParameters_length hp, beginEpisodeRebuild_length]
          exact hlen
  · intro dw hmem hhas hflags
    exact beginEpisode_isOk_false_of_bad
      (fun w => by rw [beginEpisodeUpdateWell_flags_error hflags w]; rfl) hmem hhas

/-- C4 witness: in the sample schedule the injector (arena index 0) ends with
a single type set, and the both-flags well aborts `beginEpisode`. -/
theorem c4_exactly_one_type_witness :
    ((exEpisodeResult.wells.getD 0 (initWell "")).wellType = some WellType.Injector ∨
     (exEpisodeResult.wells.getD 0 (initWell "")).wellType = some WellType.Producer) ∧
    (beginEpisode exC4Sim exC4Mgr false).isOk = false := by
  constructor
  · exact (c4_exactly_one_type exSim exMgr false).1 exEpisodeResult rfl exInjWell
      (List.mem_cons_self _ _) 0 rfl (by decide)
  · exact (c4_exactly_one_type exC4Sim exC4Mgr false).2 exBothWell
      (List.mem_cons_self _ _) (by decide) rfl

/-! ### DOF-association invariants (claim C8) -/

lemma nameDof_modifyWell (ws : List Well) : ∀ (i : Nat) (f : Well → Well),
    (∀ w, (f w).name = w.name ∧ dofIds (f w) = dofIds w) →
    (modifyWell ws i f).map (fun w => (w.name, dofIds w)) =
      ws.map (fun w => (w.name, dofIds w)) := by
  induction ws with
  | nil => intro i f _; rfl
  | cons w rest ih =>
    intro i f hf
    cases i with
    | zero => simp [modifyWell, (hf w).1, (hf w).2]
    | succ n => simp [modifyWell, ih n f hf]

lemma applyRefDepths_assoc : ∀ (dws : List DeckWell) (mgr mgr2 : Manager),
    applyRefDepths mgr dws = .ok mgr2 → dofAssociation mgr2 = dofAssociation mgr := by
  intro dws
  induction dws with
  | nil =>
    intro mgr mgr2 h
    unfold applyRefDepths at h
    cases h; rfl
  | cons d rest ih =>
    intro mgr mgr2 h
    unfold applyRefDepths at h
    by_cases hd : d.getRefDepthDefaulted
    · rw [if_pos hd] at h; exact ih _ _ h
    · rw [if_neg hd] at h
      cases hwi : wellIndex mgr d.name with
      | error s => rw [hwi] at h; simp at h
      | ok i =>
        rw [hwi] at h
        rw [ih _ _ h]
        unfold dofAssociation
        exact nameDof_modifyWell _ _ _ (fun w => ⟨rfl, rfl⟩)

lemma dofIds_setDofRadius (w : Well) (g : Nat) (r : ℚ) :
    dofIds (setDofRadius w g r) = dofIds w := by
  unfold dofIds setDofRadius
  simp only [List.map_map]
  apply List.map_congr_left
  intro d _
  by_cases h : d.globalIdx = g <;> simp [h]

lemma dofIds_setDofCtf (w : Well) (g : Nat) (v : ℚ) :
    dofIds (setDofCtf w g v) = dofIds w := by
  unfold dofIds setDofCtf
  simp only [List.map_map]
  apply List.map_congr_left
  intro d _
  by_cases h : d.globalIdx = g <;> simp [h]

lemma paramWalkDofs_assoc (cid : Nat → Int) (cmap : List (Int × Completion × Nat)) :
    ∀ (ds : List Nat) (ws : List Well),
      (paramWalkDofs cid cmap ds ws).map (fun w => (w.name, dofIds w)) =
        ws.map (fun w => (w.name, dofIds w)) := by
  intro ds
  induction ds with
  | nil => intro ws; rfl
  | cons g rest ih =>
    intro ws
    unfold paramWalkDofs
    cases cmapLookup cmap (cid g) with
    | none => exact ih ws
    | some v =>
      obtain ⟨c, wIdx⟩ := v
      simp only []
      rw [ih]
      cases c.diameter with
      | none =>
        cases c.connectionTransmissibilityFactor with
        | none => simp only []
        | some ctf =>
          simp only []
          by_cases hpos : 0 < ctf
          · rw [if_pos hpos]
            exact nameDof_modifyWell _ wIdx (fun w => setDofCtf w g ctf)
              (fun w => ⟨rfl, dofIds_setDofCtf w g ctf⟩)
          · rw [if_neg hpos]
      | some dia =>
        cases c.connectionTransmissibilityFactor with
        | none =>
          simp only []
          exact nameDof_modifyWell _ wIdx (fun w => setDofRadius w g (dia / 2))
            (fun w => ⟨rfl, dofIds_setDofRadius w g (dia / 2)⟩)
        | some ctf =>
          simp only []
          by_cases hpos : 0 < ctf
          · rw [if_pos hpos]
            rw [nameDof_modifyWell _ wIdx (fun w => setDofCtf w g ctf)
              (fun w => ⟨rfl, dofIds_setDofCtf w g ctf⟩)]
            exact nameDof_modifyWell _ wIdx (fun w => setDofRadius w g (dia / 2))
              (fun w => ⟨rfl, dofIds_setDofRadius w g (dia / 2)⟩)
          · rw [if_neg hpos]
            exact nameDof_modifyWell _ wIdx (fun w => setDofRadius w g (dia / 2))
              (fun w => ⟨rfl, dofIds_setDofRadius w g (dia / 2)⟩)

lemma paramWalkElems_assoc (cid : Nat → Int) (cmap : List (Int × Completion × Nat)) :
    ∀ (es : List GridElement) (ws : List Well),
      (paramWalkElems cid cmap es ws).map (fun w => (w.name, dofIds w)) =
        ws.map (fun w => (w.name, dofIds w)) := by
  intro es
  induction es with
  | nil => intro ws; rfl
  | cons e rest ih =>
    intro ws
    unfold paramWalkElems
    by_cases he : e.interior
    · rw [if_pos he, ih, paramWalkDofs_assoc]
    · rw [if_neg he, ih]

lemma updateWellParameters_assoc {sim : SimCtx} {mgr mgr2 : Manager} {i : Nat}
    {cmap : List (Int × Completion × Nat)}
    (h : updateWellParameters sim mgr i cmap = .ok mgr2) :
    dofAssociation mgr2 = dofAssociation mgr := by
  unfold updateWellParameters at h
  cases hr : applyRefDepths mgr (sim.eclState.getSchedule.getWells i) with
  | error s => rw [hr] at h; simp at h
  | ok mgrA =>
    rw [hr] at h
    injection h with h2
    rw [← h2]
    show (paramWalkElems _ _ _ mgrA.wells).map _ = _
    rw [paramWalkElems_assoc]
    exact applyRefDepths_assoc _ _ _ hr

lemma nameDof_set (ws : List Well) : ∀ (i : Nat) (a : Well),
    (i < ws.length → a.name = (ws.getD i (initWell "")).name ∧
      dofIds a = dofIds (ws.getD i (initWell ""))) →
    (ws.set i a).map (fun w => (w.name, dofIds w)) =
      ws.map (fun w => (w.name, dofIds w)) := by
  induction ws with
  | nil => intro i a _; rfl
  | cons w rest ih =>
    intro i a h
    cases i with
    | zero =>
      have h0 := h (by simp)
      simp only [List.set, List.map_cons]
      have hpair : (a.name, dofIds a) = (w.name, dofIds w) := by
        rw [Prod.mk.injEq]
        constructor
        · simpa using h0.1
        · simpa using h0.2
      rw [hpair]
    | succ n =>
      simp only [List.set, List.map_cons]
      rw [ih n a (fun hlt => h (by simpa using Nat.succ_lt_succ hlt))]

lemma wellsLoop_assoc {e : Nat} : ∀ (dws : List DeckWell) (mgr mgr2 : Manager),
    beginEpisodeWellsLoop e mgr dws = .ok mgr2 →
    dofAssociation mgr2 = dofAssociation mgr := by
  intro dws
  induction dws with
  | nil =>
    intro mgr mgr2 h
    unfold beginEpisodeWellsLoop at h
    cases h; rfl
  | cons d rest ih =>
    intro mgr mgr2 h
    unfold beginEpisodeWellsLoop at h
    by_cases hd : hasWell mgr d.name
    · rw [if_pos hd] at h
      obtain ⟨k, hwi, _⟩ := wellIndex_ok_of_hasWell hd
      rw [hwi] at h
      simp only [] at h
      cases hupd : beginEpisodeUpdateWell e d (mgr.wells.getD k (initWell "")) with
      | error s => rw [hupd] at h; simp at h
      | ok w2 =>
        rw [hupd] at h
        simp only [] at h
        rw [ih _ _ h]
        unfold dofAssociation
        apply nameDof_set
        intro _
        obtain ⟨hn, hdofs, _, _⟩ := beginEpisodeUpdateWell_ok_fields hupd
        exact ⟨hn, by unfold dofIds; rw [hdofs]⟩
    · rw [if_neg hd] at h
      exact ih _ _ h

lemma buildCompletionsMap_congr {m1 m2 : Manager}
    (h : m1.wellNameToIndex = m2.wellNameToIndex) (nx ny : Int) (rsi : Nat) :
    ∀ (dws : List DeckWell) (m0 : List (Int × Completion × Nat)),
      buildCompletionsMap m1 nx ny rsi dws m0 = buildCompletionsMap m2 nx ny rsi dws m0 := by
  have hhas : ∀ n, hasWell m1 n = hasWell m2 n := by
    intro n; unfold hasWell; rw [h]
  have hidx : ∀ n, wellIndex m1 n = wellIndex m2 n := by
    intro n; unfold wellIndex; rw [h]
  intro dws
  induction dws with
  | nil => intro m0; rfl
  | cons d rest ih =>
    intro m0
    unfold buildCompletionsMap
    rw [hhas d.name, hidx d.name]
    by_cases hd : hasWell m2 d.name
    · rw [if_pos hd, if_pos hd]
      cases wellIndex m2 d.name with
      | error s => rfl
      | ok k =>
        simp only []
        cases insertCompletions k nx ny (d.getCompletions rsi) m0 with
        | error s => rfl
        | ok mA => exact ih mA
    · rw [if_neg hd, if_neg hd]
      exact ih m0

lemma getD_name_eq_of_map_name_eq : ∀ (ws1 ws2 : List Well),
    ws1.map Well.name = ws2.map Well.name →
    ∀ n, (ws1.getD n (initWell "")).name = (ws2.getD n (initWell "")).name := by
  intro ws1
  induction ws1 with
  | nil =>
    intro ws2 h n
    cases ws2 with
    | nil => rfl
    | cons w r => simp at h
  | cons w1 r1 ih =>
    intro ws2 h n
    cases ws2 with
    | nil => simp at h
    | cons w2 r2 =>
      simp only [List.map_cons, List.cons.injEq] at h
      cases n with
      | zero => simpa using h.1
      | succ m =>
        simp only [List.getD_cons_succ]
        exact ih r2 h.2 m

lemma assoc_ext : ∀ (ws1 ws2 : List Well), ws1.length = ws2.length →
    (∀ n, n < ws1.length →
      (ws1.getD n (initWell "")).name = (ws2.getD n (initWell "")).name ∧
      dofIds (ws1.getD n (initWell "")) = dofIds (ws2.getD n (initWell ""))) →
    ws1.map (fun w => (w.name, dofIds w)) = ws2.map (fun w => (w.name, dofIds w)) := by
  intro ws1
  induction ws1 with
  | nil =>
    intro ws2 hlen _
    cases ws2 with
    | nil => rfl
    | cons w r => simp at hlen
  | cons w1 r1 ih =>
    intro ws2 hlen h
    cases ws2 with
    | nil => simp at hlen
    | cons w2 r2 =>
      have h0 := h 0 (by simp)
      simp only [List.getD_cons_zero] at h0
      simp only [List.map_cons]
      rw [show (w1.name, dofIds w1) = (w2.name, dofIds w2) by
            rw [Prod.mk.injEq]; exact ⟨h0.1, h0.2⟩]
      rw [ih r2 (by simpa using hlen)
            (fun n hn => by simpa using h (n + 1) (by simpa using Nat.succ_lt_succ hn))]

lemma updateWellTopology_assoc {sim : SimCtx} {cmap : List (Int × Completion × Nat)}
    {m1 m2 : Manager} (hnames : m1.wells.map Well.name = m2.wells.map Well.name) :
    dofAssociation (updateWellTopology sim m1 cmap) =
      dofAssociation (updateWellTopology sim m2 cmap) := by
  have hlen : m1.wells.length = m2.wells.length := by
    have := congrArg List.length hnames; simpa using this
  unfold dofAssociation
  apply assoc_ext
  · rw [updateWellTopology_length, updateWellTopology_length, hlen]
  · intro n hn
    rw [updateWellTopology_length] at hn
    have hn2 : n < m2.wells.length := hlen ▸ hn
    constructor
    · show ((updateWellTopology sim m1 cmap).wells.getD n (initWell "")).name = _
      unfold updateWellTopology
      simp only [topoWalkElems_eq]
      show ((applyHits _ (m1.wells.map clearWell, [])).1.getD n (initWell "")).name =
        ((applyHits _ (m2.wells.map clearWell, [])).1.getD n (initWell "")).name
      rw [applyHits_name, applyHits_name,
          getD_map_clearWell _ _ _ (by simpa using hn),
          getD_map_clearWell _ _ _ (by simpa using hn2)]
      exact getD_name_eq_of_map_name_eq _ _ hnames n
    · show dofIds ((updateWellTopology sim m1 cmap).wells.getD n (initWell "")) = _
      unfold updateWellTopology
      simp only [topoWalkElems_eq]
      show dofIds ((applyHits _ (m1.wells.map clearWell, [])).1.getD n (initWell "")) =
        dofIds ((applyHits _ (m2.wells.map clearWell, [])).1.getD n (initWell ""))
      rw [applyHits_dofIds _ _ _ _ _ (by simpa using hn),
          applyHits_dofIds _ _ _ _ _ (by simpa using hn2),
          getD_map_clearWell _ _ _ (by simpa using hn),
          getD_map_clearWell _ _ _ (by simpa using hn2)]
      simp [clearWell, dofIds]

/-- C8: serialize writes nothing and keeps the manager untouched, deserialize
is exactly a restarted `beginEpisode` for the current episode, and —
because the restart flag forces a full topology rebuild — the resulting
DOF-to-well association agrees with that of any (in particular a fresh)
manager with the same well roster running a restarted `beginEpisode` at the
same interval. -/
theorem c8_restart_roundtrip (sim : SimCtx) (m1 m2 r1 r2 : Manager) :
    (serialize m1).2 = [] ∧
    (serialize m1).1 = m1 ∧
    deserialize sim m1 = beginEpisode sim m1 true ∧
    (m1.wellNameToIndex = m2.wellNameToIndex →
     m1.wells.map Well.name = m2.wells.map Well.name →
     deserialize sim (serialize m1).1 = .ok r1 →
     beginEpisode sim m2 true = .ok r2 →
     dofAssociation r1 = dofAssociation r2) := by
  refine ⟨rfl, rfl, rfl, ?_⟩
  intro hmap hnames h1 h2
  have h1b : beginEpisode sim m1 true = .ok r1 := h1
  unfold beginEpisode at h1b h2
  cases hc : computeWellCompletionsMap sim m1 sim.episodeIndex with
  | error s => rw [hc] at h1b; simp at h1b
  | ok cmap =>
    rw [hc] at h1b
    have hc2 : computeWellCompletionsMap sim m2 sim.episodeIndex = .ok cmap := by
      unfold computeWellCompletionsMap at hc ⊢
      rw [← buildCompletionsMap_congr hmap]
      exact hc
    rw [hc2] at h2
    simp only [] at h1b h2
    have hr1 : beginEpisodeRebuild sim m1 true cmap = updateWellTopology sim m1 cmap := by
      unfold beginEpisodeRebuild; simp
    have hr2 : beginEpisodeRebuild sim m2 true cmap = updateWellTopology sim m2 cmap := by
      unfold beginEpisodeRebuild; simp
    rw [hr1] at h1b
    rw [hr2] at h2
    cases hp1 : updateWellParameters sim (updateWellTopology sim m1 cmap)
        sim.episodeIndex cmap with
    | error s => rw [hp1] at h1b; simp at h1b
    | ok mB1 =>
      rw [hp1] at h1b
      simp only [] at h1b
      cases hp2 : updateWellParameters sim (updateWellTopology sim m2 cmap)
          sim.episodeIndex cmap with
      | error s => rw [hp2] at h2; simp at h2
      | ok mB2 =>
        rw [hp2] at h2
        simp only [] at h2
        calc dofAssociation r1
            = dofAssociation mB1 := wellsLoop_assoc _ _ _ h1b
          _ = dofAssociation (updateWellTopology sim m1 cmap) :=
              updateWellParameters_assoc hp1
          _ = dofAssociation (updateWellTopology sim m2 cmap) :=
              updateWellTopology_assoc hnames
          _ = dofAssociation mB2 := (updateWellParameters_assoc hp2).symm
          _ = dofAssociation r2 := (wellsLoop_assoc _ _ _ h2).symm

/-- C8 witness: the sample manager round-trips — deserializing after
serialize yields the same DOF association as the restarted fresh call. -/
theorem c8_restart_roundtrip_witness :
    deserialize exSim (serialize exMgr).1 = .ok exC8R1 ∧
    beginEpisode exSim exMgr true = .ok exC8R2 ∧
    dofAssociation exC8R1 = dofAssociation exC8R2 := by
  have h1 : deserialize exSim (serialize exMgr).1 = .ok exC8R1 := rfl
  have h2 : beginEpisode exSim exMgr true = .ok exC8R2 := rfl
  exact ⟨h1, h2, (c8_restart_roundtrip exSim exMgr exMgr exC8R1 exC8R2).2.2.2 rfl rfl h1 h2⟩

/-! ### Drift tolerance (claim C2) -/

lemma buildCompletionsMap_cons (mgr : Manager) (nx ny : Int) (rsi : Nat)
    (d : DeckWell) (rest : List DeckWell) (m0 : List (Int × Completion × Nat)) :
    buildCompletionsMap mgr nx ny rsi (d :: rest) m0 =
      (if hasWell mgr d.name then
        match wellIndex mgr d.name with
        | .error e => .error e
        | .ok wIdx =>
          match insertCompletions wIdx nx ny (d.getCompletions rsi) m0 with
          | .error e => .error e
          | .ok m2 => buildCompletionsMap mgr nx ny rsi rest m2
      else buildCompletionsMap mgr nx ny rsi rest m0) := rfl

lemma applyRefDepths_cons (mgr : Manager) (d : DeckWell) (rest : List DeckWell) :
    applyRefDepths mgr (d :: rest) =
      (if d.getRefDepthDefaulted then applyRefDepths mgr rest
       else
        match wellIndex mgr d.name with
        | .error e => .error e
        | .ok i =>
          applyRefDepths
            { mgr with wells := (modifyWell mgr.wells i
                (fun w => { w with referenceDepth := some d.getRefDepth })) }
            rest) := rfl

lemma wellsLoop_cons (e : Nat) (mgr : Manager) (d : DeckWell) (rest : List DeckWell) :
    beginEpisodeWellsLoop e mgr (d :: rest) =
      (if hasWell mgr d.name then
        match wellIndex mgr d.name with
        | .error e => .error e
        | .ok i =>
          match beginEpisodeUpdateWell e d (mgr.wells.getD i (initWell "")) with
          | .error e => .error e
          | .ok w2 =>
            beginEpisodeWellsLoop e { mgr with wells := mgr.wells.set i w2 } rest
      else beginEpisodeWellsLoop e mgr rest) := rfl

lemma buildCompletionsMap_filter {mgr : Manager} {nx ny : Int} {rsi : Nat} :
    ∀ (dws : List DeckWell) (m0 : List (Int × Completion × Nat)),
      buildCompletionsMap mgr nx ny rsi dws m0 =
        buildCompletionsMap mgr nx ny rsi
          (dws.filter (fun dw => hasWell mgr dw.name)) m0 := by
  intro dws
  induction dws with
  | nil => intro m0; rfl
  | cons d rest ih =>
    intro m0
    by_cases hd : hasWell mgr d.name
    · rw [List.filter_cons_of_pos (by simpa using hd)]
      rw [buildCompletionsMap_cons, buildCompletionsMap_cons]
      rw [if_pos hd, if_pos hd]
      cases wellIndex mgr d.name with
      | error s => rfl
      | ok k =>
        simp only []
        cases insertCompletions k nx ny (d.getCompletions rsi) m0 with
        | error s => rfl
        | ok mA => exact ih mA
    · rw [List.filter_cons_of_neg (by simpa using hd)]
      rw [buildCompletionsMap_cons, if_neg hd]
      exact ih m0

lemma applyRefDepths_filter {mgrF : Manager} :
    ∀ (dws : List DeckWell) (mgr : Manager),
      mgr.wellNameToIndex = mgrF.wellNameToIndex →
      (∀ dw ∈ dws, hasWell mgrF dw.name = false → dw.getRefDepthDefaulted = true) →
      applyRefDepths mgr dws =
        applyRefDepths mgr (dws.filter (fun dw => hasWell mgrF dw.name)) := by
  intro dws
  induction dws with
  | nil => intro mgr _ _; rfl
  | cons d rest ih =>
    intro mgr hm hdrift
    by_cases hd : hasWell mgrF d.name
    · rw [List.filter_cons_of_pos (by simpa using hd)]
      rw [applyRefDepths_cons, applyRefDepths_cons]
      by_cases hdef : d.getRefDepthDefaulted
      · rw [if_pos hdef, if_pos hdef]
        exact ih mgr hm (fun dw hmem hdw => hdrift dw (List.mem_cons_of_mem _ hmem) hdw)
      · rw [if_neg hdef, if_neg hdef]
        cases wellIndex mgr d.name with
        | error s => rfl
        | ok k =>
          simp only []
          exact ih _ hm (fun dw hmem hdw => hdrift dw (List.mem_cons_of_mem _ hmem) hdw)
    · rw [List.filter_cons_of_neg (by simpa using hd)]
      have hdef : d.getRefDepthDefaulted = true :=
        hdrift d (List.mem_cons_self _ _) (eq_false_of_ne_true hd)
      rw [applyRefDepths_cons, if_pos hdef]
      exact ih mgr hm (fun dw hmem hdw => hdrift dw (List.mem_cons_of_mem _ hmem) hdw)

lemma wellsLoop_filter {mgrF : Manager} {e : Nat} :
    ∀ (dws : List DeckWell) (mgr : Manager),
      mgr.wellNameToIndex = mgrF.wellNameToIndex →
      beginEpisodeWellsLoop e mgr dws =
        beginEpisodeWellsLoop e mgr (dws.filter (fun dw => hasWell mgrF dw.name)) := by
  intro dws
  induction dws with
  | nil => intro mgr _; rfl
  | cons d rest ih =>
    intro mgr hm
    have hsame : hasWell mgr d.name = hasWell mgrF d.name := by
      unfold hasWell; rw [hm]
    by_cases hd : hasWell mgrF d.name
    · rw [List.filter_cons_of_pos (by simpa using hd)]
      rw [wellsLoop_cons, wellsLoop_cons]
      have hdm : hasWell mgr d.name = true := by rw [hsame]; exact hd
      rw [if_pos hdm, if_pos hdm]
      cases wellIndex mgr d.name with
      | error s => rfl
      | ok k =>
        simp only []
        cases beginEpisodeUpdateWell e d (mgr.wells.getD k (initWell "")) with
        | error s => rfl
        | ok w2 => exact ih _ hm
    · rw [List.filter_cons_of_neg (by simpa using hd)]
      have hdm : hasWell mgr d.name = false := by
        rw [hsame]; exact eq_false_of_ne_true hd
      rw [wellsLoop_cons, if_neg (by rw [hdm]; exact Bool.false_ne_true)]
      exact ih mgr hm

/-- C2 counterexample: the drifted well GHOST is unknown to the manager and
carries a non-defaulted reference depth; `beginEpisode` aborts in the
reference-depth push with the lookup error instead of skipping it. -/
theorem c2_unknown_well_refdepth_error :
    hasWell exC2Mgr exGhostWell.name = false ∧
    exGhostWell.getRefDepthDefaulted = false ∧
    exGhostWell ∈ exC2Sim.eclState.getSchedule.getWells 0 ∧
    beginEpisode exC2Sim exC2Mgr false = .error ("No well called GHOST found") := by
  refine ⟨by decide, rfl, ?_, ?_⟩
  · show exGhostWell ∈ [exInjWell, exGhostWell]
    exact List.mem_cons_of_mem _ (List.mem_cons_self _ _)
  · rfl

/-- C2 (amended): a deck well unknown to the manager is skipped by the
completions-map construction and by control resolution unconditionally, and
by parameter application provided its reference depth is defaulted: each of
the three phases computes the same result as on the schedule with the unknown
wells filtered out.  (An unknown well with a non-defaulted reference depth
instead makes the reference-depth push throw a lookup error.) -/
theorem c2_drift_tolerated (mgr : Manager) (nx ny : Int) (e : Nat)
    (dws : List DeckWell)
    (hdrift : ∀ dw ∈ dws, hasWell mgr dw.name = false → dw.getRefDepthDefaulted = true) :
    (∀ m0, buildCompletionsMap mgr nx ny e dws m0 =
      buildCompletionsMap mgr nx ny e (dws.filter (fun dw => hasWell mgr dw.name)) m0) ∧
    applyRefDepths mgr dws =
      applyRefDepths mgr (dws.filter (fun dw => hasWell mgr dw.name)) ∧
    beginEpisodeWellsLoop e mgr dws =
      beginEpisodeWellsLoop e mgr (dws.filter (fun dw => hasWell mgr dw.name)) :=
  ⟨fun m0 => buildCompletionsMap_filter dws m0,
   applyRefDepths_filter dws mgr rfl hdrift,
   wellsLoop_filter dws mgr rfl⟩

/-- C2 witness: with the reference depth of the drifted well defaulted, all three
phases of `beginEpisode` ignore it. -/
theorem c2_drift_tolerated_witness :
    (buildCompletionsMap exC2dMgr 2 2 0 (exC2dEclState.getSchedule.getWells 0) [] =
      buildCompletionsMap exC2dMgr 2 2 0
        ((exC2dEclState.getSchedule.getWells 0).filter
          (fun dw => hasWell exC2dMgr dw.name)) []) ∧
    applyRefDepths exC2dMgr (exC2dEclState.getSchedule.getWells 0) =
      applyRefDepths exC2dMgr
        ((exC2dEclState.getSchedule.getWells 0).filter
          (fun dw => hasWell exC2dMgr dw.name)) ∧
    beginEpisodeWellsLoop 0 exC2dMgr (exC2dEclState.getSchedule.getWells 0) =
      beginEpisodeWellsLoop 0 exC2dMgr
        ((exC2dEclState.getSchedule.getWells 0).filter
          (fun dw => hasWell exC2dMgr dw.name)) := by
  have h := c2_drift_tolerated exC2dMgr 2 2 0 (exC2dEclState.getSchedule.getWells 0)
    (by decide)
  exact ⟨h.1 [], h.2.1, h.2.2⟩

end EclWellManagerModel
